import Mathlib

/-!
Shallow embedding of `tensorpipe/transport/ibv/connection.cc`.

The connection is modelled as an explicit state record `Conn` together with an
executable event-step function `stepF`. All the loop-thread routines of
`Connection::Impl` (`readFromLoop`, `writeFromLoop`,
`processReadOperationsFromLoop`, `processWriteOperationsFromLoop`, the
completion handlers, `setError_`, `handleError`, `tryCleanup_`, `cleanup_`,
`closeFromLoop`) are translated into pure state transformers. Posted
InfiniBand work requests are recorded in a log (`postedWrs`), and callback
invocations are recorded in logs (`readCbLog`, `writeCbLog`) so that ordering
properties can be stated. Machine counters (`uint64_t` / `uint32_t`) are
modelled as `Nat`; the event guards of `stepF` restrict the environment to the
behaviours the InfiniBand RC transport and the reactor guarantee (completions
only for posted requests, ACKs only for in-flight bytes), under which no
counter ever underflows or overflows in the source.

The ring-buffer helper (`util/ringbuffer`) and the per-operation state
machines (`RingbufferReadOperation` / `RingbufferWriteOperation` from
`ringbuffer_read_write_ops.h`) are not part of the sources; they are modelled
from the spec where indicated.
-/

namespace TensorpipeIbv

/-- Ring-buffer capacity: `constexpr auto kBufferSize = 2 * 1024 * 1024`. -/
def kBufferSize : Nat := 2 * 1024 * 1024

/-- Work-request id used for RDMA writes: `constexpr uint64_t kWriteRequestId = 1`. -/
def kWriteRequestId : Nat := 1

/-- Work-request id used for ACK sends: `constexpr uint64_t kAckRequestId = 2`. -/
def kAckRequestId : Nat := 2

/-- Size in bytes of the `Exchange` struct sent over TCP during the handshake.
The exact value is ABI-dependent and never used by any property below. -/
def sizeofExchange : Nat := 44

/-- Error taxonomy of the transport (`tensorpipe/transport/error.h` and
`TP_CREATE_ERROR` uses in `connection.cc`). Every constructor is a
non-success error; the success state is `Option.none` in `Conn.error`. -/
inductive Err where
  | connectionClosed : Err
  | eofError : Err
  | shortRead (expected actual : Nat) : Err
  | shortWrite (expected actual : Nat) : Err
  | systemError (errno : Nat) : Err
  | ibvError (status : Nat) : Err
  deriving DecidableEq, Repr

/-- The `State` enum of `Connection::Impl`. -/
inductive LState where
  | initializing : LState
  | sendAddr : LState
  | recvAddr : LState
  | established : LState
  deriving DecidableEq, Repr

/-- Numeric value of each state constant (the C++ enum starts at 1), used for
the `state_ > INITIALIZING` comparison in `handleError`. -/
def stateNum : LState → Nat
  | .initializing => 1
  | .sendAddr => 2
  | .recvAddr => 3
  | .established => 4

/-- Send opcodes used by the connection. -/
inductive Opcode where
  | rdmaWriteWithImm : Opcode
  | sendWithImm : Opcode
  deriving DecidableEq, Repr

/-- The fields of an `IbvLib::send_wr` that the connection fills in (after
`memset(&wr, 0, sizeof(wr))`, so unset fields are zero). -/
structure SendWr where
  wrId : Nat
  opcode : Opcode
  imm : Nat
  remoteAddr : Nat
  rkey : Nat
  deriving DecidableEq, Repr

/-- A contiguous span of the outbox ring buffer (offset into the buffer and
length), as returned by the consumer peek. -/
structure Span where
  off : Nat
  len : Nat
  deriving DecidableEq, Repr

/-- Total length of a list of spans. -/
def sumLens (l : List Span) : Nat := (l.map Span.len).sum

/-- The read flavours of the connection: sized (`read(ptr, length, fn)`),
unsized (`read(fn)`), and nop-object (`read(object, fn)`, whose serialised
size is `total`). -/
inductive RKind where
  | sized (ptr total : Nat) : RKind
  | unsized : RKind
  | nop (total : Nat) : RKind
  deriving DecidableEq, Repr

/-- Modelled from the spec: a `RingbufferReadOperation`
(`ringbuffer_read_write_ops.h` is not among the sources). It carries the
submission sequence number, the flavour, and a progress cursor (bytes
delivered so far). -/
structure ReadOp where
  seq : Nat
  kind : RKind
  cursor : Nat
  deriving DecidableEq, Repr

/-- Modelled from the spec: a `RingbufferWriteOperation` with its submission
sequence number, total byte count and progress cursor. -/
structure WriteOp where
  seq : Nat
  total : Nat
  cursor : Nat
  deriving DecidableEq, Repr

/-- Modelled from the spec: the number of bytes one `handleRead` pass consumes
from the inbox, given the inbox occupancy. A sized or nop read consumes up to
its remaining byte count; an unsized read consumes whatever is available. -/
def ReadOp.passLen (op : ReadOp) (avail : Nat) : Nat :=
  match op.kind with
  | .sized _ total => min avail (total - op.cursor)
  | .unsized => avail
  | .nop total => min avail (total - op.cursor)

/-- Cursor advance of one `handleRead` pass. -/
def ReadOp.advance (op : ReadOp) (avail : Nat) : ReadOp :=
  { op with cursor := op.cursor + op.passLen avail }

/-- Modelled from the spec: completion test of a read operation. A sized or
nop read is complete when the cursor reaches the total; an unsized read
completes on the first non-zero chunk. -/
def ReadOp.completed (op : ReadOp) : Bool :=
  match op.kind with
  | .sized _ total => op.cursor = total
  | .unsized => 0 < op.cursor
  | .nop total => op.cursor = total

/-- Modelled from the spec: the number of bytes one `handleWrite` pass copies
into the outbox, given the outbox free space. -/
def WriteOp.passLen (op : WriteOp) (free : Nat) : Nat :=
  min free (op.total - op.cursor)

/-- Cursor advance of one `handleWrite` pass. -/
def WriteOp.advance (op : WriteOp) (free : Nat) : WriteOp :=
  { op with cursor := op.cursor + op.passLen free }

/-- Completion test of a write operation: all bytes enqueued in the outbox. -/
def WriteOp.completed (op : WriteOp) : Bool :=
  op.cursor = op.total

/-- One recorded invocation of a read callback: the wrapper's sequence number,
the error argument (`none` = success) and the pointer/length arguments. -/
structure ReadCbCall where
  seq : Nat
  err : Option Err
  ptr : Option Nat
  len : Nat
  deriving DecidableEq, Repr

/-- One recorded invocation of a write callback. -/
structure WriteCbCall where
  seq : Nat
  err : Option Err
  deriving DecidableEq, Repr

/-- The resources released by `cleanup_`, in release order. -/
inductive Resource where
  | qpUnregister : Resource
  | qpReset : Resource
  | inboxMrReset : Resource
  | inboxBufReset : Resource
  | outboxMrReset : Resource
  | outboxBufReset : Resource
  deriving DecidableEq, Repr

/-- The state of one `Connection::Impl`, together with observation logs:
`postedWrs` records every work request handed to the reactor, `readCbLog` and
`writeCbLog` record every callback invocation, and `assertFailed` records
whether the `TP_DCHECK_EQ(sequenceNumber, nextCallbackToCall_++)` assertion in
any callback wrapper ever failed. -/
structure Conn where
  state : LState
  error : Option Err
  inboxHead : Nat
  inboxTail : Nat
  outboxHead : Nat
  outboxTail : Nat
  peerInboxKey : Nat
  peerInboxPtr : Nat
  peerInboxHead : Nat
  numBytesInFlight : Nat
  numWritesInFlight : Nat
  numAcksInFlight : Nat
  readOps : List ReadOp
  writeOps : List WriteOp
  nextBufferBeingRead : Nat
  nextBufferBeingWritten : Nat
  nextReadCallbackToCall : Nat
  nextWriteCallbackToCall : Nat
  readCbLog : List ReadCbCall
  writeCbLog : List WriteCbCall
  postedWrs : List SendWr
  assertFailed : Bool
  socketOpen : Bool
  qpInError : Bool
  cleanupScheduled : Bool
  cleanedUp : Bool
  releasedResources : List Resource
  deriving DecidableEq, Repr

/-- The freshly constructed connection (all counters zero, no error, TCP
socket present). -/
def initConn : Conn where
  state := .initializing
  error := none
  inboxHead := 0
  inboxTail := 0
  outboxHead := 0
  outboxTail := 0
  peerInboxKey := 0
  peerInboxPtr := 0
  peerInboxHead := 0
  numBytesInFlight := 0
  numWritesInFlight := 0
  numAcksInFlight := 0
  readOps := []
  writeOps := []
  nextBufferBeingRead := 0
  nextBufferBeingWritten := 0
  nextReadCallbackToCall := 0
  nextWriteCallbackToCall := 0
  readCbLog := []
  writeCbLog := []
  postedWrs := []
  assertFailed := false
  socketOpen := true
  qpInError := false
  cleanupScheduled := false
  cleanedUp := false
  releasedResources := []

/-- Invocation of a (wrapped) read callback. The wrapper asserts
`TP_DCHECK_EQ(sequenceNumber, nextReadCallbackToCall_++)`: the counter is
incremented and the assertion outcome is recorded. -/
def invokeReadCb (s : Conn) (seq : Nat) (err : Option Err) (p : Option Nat) (l : Nat) : Conn :=
  { s with
    assertFailed := if seq = s.nextReadCallbackToCall then s.assertFailed else true
    nextReadCallbackToCall := s.nextReadCallbackToCall + 1
    readCbLog := s.readCbLog ++ [⟨seq, err, p, l⟩] }

/-- Invocation of a (wrapped) write callback, asserting
`TP_DCHECK_EQ(sequenceNumber, nextWriteCallbackToCall_++)`. -/
def invokeWriteCb (s : Conn) (seq : Nat) (err : Option Err) : Conn :=
  { s with
    assertFailed := if seq = s.nextWriteCallbackToCall then s.assertFailed else true
    nextWriteCallbackToCall := s.nextWriteCallbackToCall + 1
    writeCbLog := s.writeCbLog ++ [⟨seq, err⟩] }

/-- Modelled from the spec: the pointer/length arguments a completed read
operation passes to its callback on success. -/
def ReadOp.donePtr (op : ReadOp) : Option Nat :=
  match op.kind with
  | .sized ptr _ => some ptr
  | .unsized => none
  | .nop _ => none

/-- Modelled from the spec: the length argument on successful completion. -/
def ReadOp.doneLen (op : ReadOp) : Nat :=
  match op.kind with
  | .sized _ total => total
  | .unsized => op.cursor
  | .nop _ => 0

/-- Modelled from the spec: the pointer/length arguments a queued read
operation passes to its callback when failed by `handleError`. -/
def ReadOp.errPtr (op : ReadOp) : Option Nat :=
  match op.kind with
  | .sized ptr _ => some ptr
  | .unsized => none
  | .nop _ => none

/-- Modelled from the spec: the length argument on failure. -/
def ReadOp.errLen (op : ReadOp) : Nat :=
  match op.kind with
  | .sized _ total => total
  | .unsized => 0
  | .nop _ => 0

/-- Posting the zero-payload ACK send of `processReadOperationsFromLoop`
(lines 768-778): `wr_id = kAckRequestId`, `opcode = WR_SEND_WITH_IMM`,
`imm_data = len`, every other field zero after the `memset`; then
`numAcksInFlight_++`. -/
def postAckWr (s : Conn) (len : Nat) : Conn :=
  { s with
    postedWrs := s.postedWrs ++
      [{ wrId := kAckRequestId, opcode := .sendWithImm, imm := len,
         remoteAddr := 0, rkey := 0 }]
    numAcksInFlight := s.numAcksInFlight + 1 }

/-- One pass of the `processReadOperationsFromLoop` loop body over the head
read operation: consume `len` bytes from the inbox (committing the tail) and,
if `len > 0`, post an ACK. -/
def readPass (s : Conn) (op : ReadOp) : Conn :=
  let len := op.passLen (s.inboxHead - s.inboxTail)
  let s1 := { s with inboxTail := s.inboxTail + len }
  if 0 < len then postAckWr s1 len else s1

/-- The loop of `processReadOperationsFromLoop`: serve the head operation;
completed operations are popped and their callback invoked with success;
an incomplete head operation stops the loop. -/
def goRead : Conn → List ReadOp → Conn
  | s, [] => { s with readOps := [] }
  | s, op :: rest =>
    let op' := op.advance (s.inboxHead - s.inboxTail)
    let s2 := readPass s op
    if op'.completed then
      goRead (invokeReadCb s2 op'.seq none op'.donePtr op'.doneLen) rest
    else
      { s2 with readOps := op' :: rest }

/-- `Connection::Impl::processReadOperationsFromLoop`: a no-op unless the
connection is established. -/
def processReadOperationsFromLoop (s : Conn) : Conn :=
  if s.state = .established then goRead s s.readOps else s

/-- The consumer peek of the outbox in `processWriteOperationsFromLoop`:
after skipping `skip` in-flight bytes past the tail, the next `len` bytes
occupy one contiguous span, or two if they wrap around the end of the
buffer. -/
def outboxSpans (tail skip len : Nat) : List Span :=
  let off := (tail + skip) % kBufferSize
  if len ≤ kBufferSize - off then [⟨off, len⟩]
  else [⟨off, kBufferSize - off⟩, ⟨0, len - (kBufferSize - off)⟩]

/-- Posting one RDMA write for one span (lines 823-847): the remote address is
`peerInboxPtr_ + (peerInboxHead_ & (kBufferSize - 1))` at posting time, the
remote key is `peerInboxKey_`, the opcode is `WR_RDMA_WRITE_WITH_IMM` with
`imm_data` equal to the span length and `wr_id = kWriteRequestId`; then
`peerInboxHead_` advances by the span length and `numWritesInFlight_` is
incremented. -/
def postSpan (s : Conn) (sp : Span) : Conn :=
  { s with
    postedWrs := s.postedWrs ++
      [{ wrId := kWriteRequestId, opcode := .rdmaWriteWithImm, imm := sp.len,
         remoteAddr := s.peerInboxPtr + s.peerInboxHead % kBufferSize,
         rkey := s.peerInboxKey }]
    peerInboxHead := s.peerInboxHead + sp.len
    numWritesInFlight := s.numWritesInFlight + 1 }

/-- The `len > 0` branch of the `processWriteOperationsFromLoop` loop body
after the producer commit: open a consumer peek transaction, skip the
in-flight bytes, access the `len` new bytes as spans, post one RDMA write per
span, cancel the transaction (the tail is untouched), and add `len` to
`numBytesInFlight_`. -/
def postChunk (s : Conn) (len : Nat) : Conn :=
  let spans := outboxSpans s.outboxTail s.numBytesInFlight len
  let s1 := spans.foldl postSpan s
  { s1 with numBytesInFlight := s1.numBytesInFlight + len }

/-- One pass of the `processWriteOperationsFromLoop` loop body over the head
write operation: produce `len` bytes into the outbox (committing the head)
and, if `len > 0`, post the corresponding RDMA writes. -/
def writePass (s : Conn) (op : WriteOp) : Conn :=
  let len := op.passLen (kBufferSize - (s.outboxHead - s.outboxTail))
  let s1 := { s with outboxHead := s.outboxHead + len }
  if 0 < len then postChunk s1 len else s1

/-- The loop of `processWriteOperationsFromLoop`: serve the head operation;
completed operations are popped and their callback invoked with success; an
incomplete head operation stops the loop. -/
def goWrite : Conn → List WriteOp → Conn
  | s, [] => { s with writeOps := [] }
  | s, op :: rest =>
    let op' := op.advance (kBufferSize - (s.outboxHead - s.outboxTail))
    let s2 := writePass s op
    if op'.completed then
      goWrite (invokeWriteCb s2 op'.seq none) rest
    else
      { s2 with writeOps := op' :: rest }

/-- `Connection::Impl::processWriteOperationsFromLoop`: a no-op unless the
connection is established. -/
def processWriteOperationsFromLoop (s : Conn) : Conn :=
  if s.state = .established then goWrite s s.writeOps else s

/-- `Connection::Impl::tryCleanup_`: only when an error is latched and both
`numWritesInFlight_` and `numAcksInFlight_` are zero is `cleanup_` deferred
onto the loop. -/
def tryCleanup_ (s : Conn) : Conn :=
  if s.error.isSome then
    if s.numWritesInFlight = 0 ∧ s.numAcksInFlight = 0 then
      { s with cleanupScheduled := true }
    else s
  else s

/-- `Connection::Impl::cleanup_`: unregister the QP from the reactor and
release, in order, the QP, the inbox MR, the inbox buffer, the outbox MR and
the outbox buffer. -/
def cleanup_ (s : Conn) : Conn :=
  { s with
    cleanedUp := true
    releasedResources := s.releasedResources ++
      [.qpUnregister, .qpReset, .inboxMrReset, .inboxBufReset,
       .outboxMrReset, .outboxBufReset] }

/-- Failing every queued read operation with the latched error, in queue
order (`for (auto& readOperation : readOperations_) handleError(error_)`). -/
def drainReadOps : Conn → List ReadOp → Conn
  | s, [] => s
  | s, op :: rest =>
    drainReadOps (invokeReadCb s op.seq s.error op.errPtr op.errLen) rest

/-- Failing every queued write operation with the latched error, in queue
order. -/
def drainWriteOps : Conn → List WriteOp → Conn
  | s, [] => s
  | s, op :: rest =>
    drainWriteOps (invokeWriteCb s op.seq s.error) rest

/-- `Connection::Impl::handleError` (lines 923-946): invoke every pending
read callback with the error and clear the read queue, then likewise for the
write queue; transition the QP to the error state; call `tryCleanup_`; and
finally, if the socket is still present, unregister it (when the state is
past `INITIALIZING`) and reset it. -/
def handleError (s : Conn) : Conn :=
  let s1 := { drainReadOps s s.readOps with readOps := [] }
  let s2 := { drainWriteOps s1 s1.writeOps with writeOps := [] }
  let s3 := { s2 with qpInError := true }
  let s4 := tryCleanup_ s3
  if s4.socketOpen then { s4 with socketOpen := false } else s4

/-- `Connection::Impl::setError_`: an error that is already latched is never
overwritten (`if (error_ || !error) return;`); the first non-success error is
stored and `handleError` runs. Every call site passes a non-success error
(`TP_CREATE_ERROR` never produces the success value), so the `!error` branch
is unreachable and `Err` has no success constructor. -/
def setError_ (s : Conn) (e : Err) : Conn :=
  match s.error with
  | some _ => s
  | none => handleError { s with error := some e }

/-- `Connection::Impl::closeFromLoop`: sets the `ConnectionClosed` error. -/
def closeFromLoop (s : Conn) : Conn :=
  setError_ s .connectionClosed

/-- `Connection::Impl::readFromLoop(ptr, length, fn)` (sized read): assign
the next sequence number; if an error is latched, invoke the wrapped callback
synchronously with the error, the caller's pointer and the full requested
length; otherwise enqueue the operation and process the read queue. -/
def readFromLoopSized (s : Conn) (ptr len : Nat) : Conn :=
  let seq := s.nextBufferBeingRead
  let s1 := { s with nextBufferBeingRead := seq + 1 }
  match s1.error with
  | some e => invokeReadCb s1 seq (some e) (some ptr) len
  | none =>
    processReadOperationsFromLoop
      { s1 with readOps := s1.readOps ++ [⟨seq, .sized ptr len, 0⟩] }

/-- `Connection::Impl::readFromLoop(fn)` (unsized read): on a latched error
the wrapped callback is invoked synchronously with `(error_, nullptr, 0)`. -/
def readFromLoopUnsized (s : Conn) : Conn :=
  let seq := s.nextBufferBeingRead
  let s1 := { s with nextBufferBeingRead := seq + 1 }
  match s1.error with
  | some e => invokeReadCb s1 seq (some e) none 0
  | none =>
    processReadOperationsFromLoop
      { s1 with readOps := s1.readOps ++ [⟨seq, .unsized, 0⟩] }

/-- `Connection::Impl::readFromLoop(object, fn)` (nop-object read): on a
latched error the wrapped callback is invoked synchronously with the error
(the nop callback takes no pointer/length arguments). -/
def readFromLoopNop (s : Conn) (total : Nat) : Conn :=
  let seq := s.nextBufferBeingRead
  let s1 := { s with nextBufferBeingRead := seq + 1 }
  match s1.error with
  | some e => invokeReadCb s1 seq (some e) none 0
  | none =>
    processReadOperationsFromLoop
      { s1 with readOps := s1.readOps ++ [⟨seq, .nop total, 0⟩] }

/-- `Connection::Impl::writeFromLoop(ptr, length, fn)`: assign the next
sequence number; if an error is latched, invoke the wrapped callback
synchronously with the error; otherwise enqueue and process the write
queue. -/
def writeFromLoopRaw (s : Conn) (total : Nat) : Conn :=
  let seq := s.nextBufferBeingWritten
  let s1 := { s with nextBufferBeingWritten := seq + 1 }
  match s1.error with
  | some e => invokeWriteCb s1 seq (some e)
  | none =>
    processWriteOperationsFromLoop
      { s1 with writeOps := s1.writeOps ++ [⟨seq, total, 0⟩] }

/-- `Connection::Impl::writeFromLoop(object, fn)` (nop-object write, whose
serialised size is `total`). -/
def writeFromLoopNop (s : Conn) (total : Nat) : Conn :=
  let seq := s.nextBufferBeingWritten
  let s1 := { s with nextBufferBeingWritten := seq + 1 }
  match s1.error with
  | some e => invokeWriteCb s1 seq (some e)
  | none =>
    processWriteOperationsFromLoop
      { s1 with writeOps := s1.writeOps ++ [⟨seq, total, 0⟩] }

/-- `Connection::Impl::onRemoteProducedData`: directly advance the inbox head
by the immediate value carried by the peer's RDMA write, then process read
operations. -/
def onRemoteProducedData (s : Conn) (len : Nat) : Conn :=
  processReadOperationsFromLoop { s with inboxHead := s.inboxHead + len }

/-- `Connection::Impl::onRemoteConsumedData`: advance the outbox tail by the
ACKed length, subtract it from `numBytesInFlight_`, then process write
operations. -/
def onRemoteConsumedData (s : Conn) (len : Nat) : Conn :=
  processWriteOperationsFromLoop
    { s with
      outboxTail := s.outboxTail + len
      numBytesInFlight := s.numBytesInFlight - len }

/-- `Connection::Impl::onWriteCompleted`: decrement `numWritesInFlight_` and
try to clean up. -/
def onWriteCompleted (s : Conn) : Conn :=
  tryCleanup_ { s with numWritesInFlight := s.numWritesInFlight - 1 }

/-- `Connection::Impl::onAckCompleted`: decrement `numAcksInFlight_` and try
to clean up. -/
def onAckCompleted (s : Conn) : Conn :=
  tryCleanup_ { s with numAcksInFlight := s.numAcksInFlight - 1 }

/-- `Connection::Impl::onError`: latch an `IbvError`, then use `wr_id` to
treat the failed completion as a write completion (`kWriteRequestId`) or an
ack completion (`kAckRequestId`). -/
def onError (s : Conn) (status wrId : Nat) : Conn :=
  let s1 := setError_ s (.ibvError status)
  if wrId = kWriteRequestId then onWriteCompleted s1
  else if wrId = kAckRequestId then onAckCompleted s1
  else s1

/-- `handleEventInFromLoop` in state `RECV_ADDR` with a full setup blob:
record the peer's inbox pointer and key, transition to `ESTABLISHED`, and
drain first the write queue, then the read queue. -/
def establish (s : Conn) (pPtr pKey : Nat) : Conn :=
  processReadOperationsFromLoop
    (processWriteOperationsFromLoop
      { s with peerInboxPtr := pPtr, peerInboxKey := pKey, state := .established })

/-- The events that can drive one connection: the deferred loop lambdas of the
public API, socket readiness events, and reactor completion callbacks. -/
inductive Event where
  | initOk : Event
  | initFail (e : Err) : Event
  | epollOutOk : Event
  | epollOutShort (actual : Nat) : Event
  | epollInOk (pPtr pKey : Nat) : Event
  | epollInShort (actual : Nat) : Event
  | epollInEof : Event
  | epollErr (errno : Nat) : Event
  | epollHup : Event
  | submitReadSized (ptr len : Nat) : Event
  | submitReadUnsized : Event
  | submitReadNop (total : Nat) : Event
  | submitWriteRaw (total : Nat) : Event
  | submitWriteNop (total : Nat) : Event
  | remoteProduced (len : Nat) : Event
  | remoteConsumed (len : Nat) : Event
  | writeCompleted : Event
  | ackCompleted : Event
  | wcError (status wrId : Nat) : Event
  | closeEv : Event
  | cleanupRun : Event
  deriving DecidableEq, Repr

/-- The guarded event-step function. Guards encode when each event can occur:
socket events require the socket to be registered in the matching state;
remote data/ACK events only occur on an established, not-yet-cleaned-up
connection and (by the RC transport's guarantees) never overflow our inbox
nor acknowledge more than the in-flight bytes; completion events only occur
for posted work requests; the deferred `cleanup_` lambda runs only once after
being scheduled. -/
def stepF (s : Conn) (e : Event) : Option Conn :=
  match e with
  | .initOk =>
    if s.state = .initializing then some { s with state := .sendAddr } else none
  | .initFail err =>
    if s.state = .initializing then some (setError_ s err) else none
  | .epollOutOk =>
    if s.state = .sendAddr ∧ s.socketOpen then
      some { s with state := .recvAddr } else none
  | .epollOutShort actual =>
    if s.state = .sendAddr ∧ s.socketOpen then
      some (setError_ s (.shortWrite sizeofExchange actual)) else none
  | .epollInOk pPtr pKey =>
    if s.state = .recvAddr ∧ s.socketOpen then
      some (establish s pPtr pKey) else none
  | .epollInShort actual =>
    if s.state = .recvAddr ∧ s.socketOpen then
      some (setError_ s (.shortRead sizeofExchange actual)) else none
  | .epollInEof =>
    if s.state = .established ∧ s.socketOpen then
      some (setError_ s .eofError) else none
  | .epollErr errno =>
    if s.socketOpen then some (setError_ s (.systemError errno)) else none
  | .epollHup =>
    if s.socketOpen then some (setError_ s .eofError) else none
  | .submitReadSized ptr len => some (readFromLoopSized s ptr len)
  | .submitReadUnsized => some (readFromLoopUnsized s)
  | .submitReadNop total => some (readFromLoopNop s total)
  | .submitWriteRaw total => some (writeFromLoopRaw s total)
  | .submitWriteNop total => some (writeFromLoopNop s total)
  | .remoteProduced len =>
    if s.state = .established ∧ ¬s.cleanedUp ∧ 0 < len ∧
        s.inboxHead - s.inboxTail + len ≤ kBufferSize then
      some (onRemoteProducedData s len) else none
  | .remoteConsumed len =>
    if s.state = .established ∧ ¬s.cleanedUp ∧ 0 < len ∧
        len ≤ s.numBytesInFlight then
      some (onRemoteConsumedData s len) else none
  | .writeCompleted =>
    if 0 < s.numWritesInFlight then some (onWriteCompleted s) else none
  | .ackCompleted =>
    if 0 < s.numAcksInFlight then some (onAckCompleted s) else none
  | .wcError status wrId =>
    if (wrId = kWriteRequestId → 0 < s.numWritesInFlight) ∧
        (wrId = kAckRequestId → 0 < s.numAcksInFlight) then
      some (onError s status wrId) else none
  | .closeEv => some (closeFromLoop s)
  | .cleanupRun =>
    if s.cleanupScheduled ∧ ¬s.cleanedUp then some (cleanup_ s) else none

/-- The states a connection can reach from construction under any sequence of
events accepted by the guards. -/
inductive Reachable : Conn → Prop where
  | init : Reachable initConn
  | step {s s' : Conn} {e : Event} :
      Reachable s → stepF s e = some s' → Reachable s'

/-- The expected work requests posted for a list of spans: one RDMA write per
span, each addressed at the peer-inbox offset of the peer-inbox head as it
stands when that span is posted. -/
def expectedWriteWrs (ptr key : Nat) : Nat → List Span → List SendWr
  | _, [] => []
  | head, sp :: rest =>
    { wrId := kWriteRequestId, opcode := .rdmaWriteWithImm, imm := sp.len,
      remoteAddr := ptr + head % kBufferSize, rkey := key } ::
    expectedWriteWrs ptr key (head + sp.len) rest

theorem sumLens_nil : sumLens [] = 0 := rfl

theorem sumLens_cons (sp : Span) (l : List Span) :
    sumLens (sp :: l) = sp.len + sumLens l := by
  simp [sumLens]

/-- The spans of one consumer peek cover exactly the requested length. -/
theorem sumLens_outboxSpans (tail skip len : Nat) :
    sumLens (outboxSpans tail skip len) = len := by
  simp only [outboxSpans]
  split
  · simp [sumLens]
  · next h =>
    simp only [sumLens_cons, sumLens_nil]
    omega

/-- At most two spans come out of one peek. -/
theorem length_outboxSpans (tail skip len : Nat) :
    (outboxSpans tail skip len).length = 1 ∨
    (outboxSpans tail skip len).length = 2 := by
  simp only [outboxSpans]
  split <;> simp

/-- Effect of posting a list of spans by folding `postSpan`: the work requests
of `expectedWriteWrs` are appended, the peer-inbox head advances by the total
span length, `numWritesInFlight_` rises by the number of spans, and every
other field is untouched. -/
theorem foldl_postSpan (spans : List Span) : ∀ s : Conn,
    (spans.foldl postSpan s).postedWrs =
      s.postedWrs ++ expectedWriteWrs s.peerInboxPtr s.peerInboxKey s.peerInboxHead spans ∧
    (spans.foldl postSpan s).peerInboxHead = s.peerInboxHead + sumLens spans ∧
    (spans.foldl postSpan s).numWritesInFlight = s.numWritesInFlight + spans.length ∧
    (spans.foldl postSpan s).peerInboxPtr = s.peerInboxPtr ∧
    (spans.foldl postSpan s).peerInboxKey = s.peerInboxKey ∧
    (spans.foldl postSpan s).outboxHead = s.outboxHead ∧
    (spans.foldl postSpan s).outboxTail = s.outboxTail ∧
    (spans.foldl postSpan s).numBytesInFlight = s.numBytesInFlight ∧
    (spans.foldl postSpan s).numAcksInFlight = s.numAcksInFlight ∧
    (spans.foldl postSpan s).inboxHead = s.inboxHead ∧
    (spans.foldl postSpan s).inboxTail = s.inboxTail ∧
    (spans.foldl postSpan s).readOps = s.readOps ∧
    (spans.foldl postSpan s).writeOps = s.writeOps ∧
    (spans.foldl postSpan s).nextBufferBeingRead = s.nextBufferBeingRead ∧
    (spans.foldl postSpan s).nextBufferBeingWritten = s.nextBufferBeingWritten ∧
    (spans.foldl postSpan s).nextReadCallbackToCall = s.nextReadCallbackToCall ∧
    (spans.foldl postSpan s).nextWriteCallbackToCall = s.nextWriteCallbackToCall ∧
    (spans.foldl postSpan s).readCbLog = s.readCbLog ∧
    (spans.foldl postSpan s).writeCbLog = s.writeCbLog ∧
    (spans.foldl postSpan s).assertFailed = s.assertFailed ∧
    (spans.foldl postSpan s).error = s.error ∧
    (spans.foldl postSpan s).state = s.state ∧
    (spans.foldl postSpan s).socketOpen = s.socketOpen ∧
    (spans.foldl postSpan s).cleanupScheduled = s.cleanupScheduled ∧
    (spans.foldl postSpan s).cleanedUp = s.cleanedUp := by
  induction spans with
  | nil => intro s; simp [expectedWriteWrs, sumLens]
  | cons sp rest ih =>
    intro s
    obtain ⟨hp, hh, hw, hptr, hkey, hoh, hot, hnb, hna, hih, hit, hro, hwo,
      hnbr, hnbw, hnrc, hnwc, hrl, hwl, haf, herr, hst, hso, hcs, hcu⟩ :=
      ih (postSpan s sp)
    simp only [List.foldl_cons, hp, hh, hw, hptr, hkey, hoh, hot, hnb, hna,
      hih, hit, hro, hwo, hnbr, hnbw, hnrc, hnwc, hrl, hwl, haf, herr, hst,
      hso, hcs, hcu]
    simp only [postSpan]
    refine ⟨by simp [expectedWriteWrs], by simp [sumLens_cons]; omega,
      by simp; omega, ?_⟩
    simp

@[simp] theorem drainReadOps_error (ops : List ReadOp) :
    ∀ s : Conn, (drainReadOps s ops).error = s.error := by
  induction ops with
  | nil => intro s; rfl
  | cons op rest ih => intro s; simp [drainReadOps, ih, invokeReadCb]

@[simp] theorem drainReadOps_state (ops : List ReadOp) :
    ∀ s : Conn, (drainReadOps s ops).state = s.state := by
  induction ops with
  | nil => intro s; rfl
  | cons op rest ih => intro s; simp [drainReadOps, ih, invokeReadCb]

@[simp] theorem drainReadOps_inboxHead (ops : List ReadOp) :
    ∀ s : Conn, (drainReadOps s ops).inboxHead = s.inboxHead := by
  induction ops with
  | nil => intro s; rfl
  | cons op rest ih => intro s; simp [drainReadOps, ih, invokeReadCb]

@[simp] theorem drainReadOps_inboxTail (ops : List ReadOp) :
    ∀ s : Conn, (drainReadOps s ops).inboxTail = s.inboxTail := by
  induction ops with
  | nil => intro s; rfl
  | cons op rest ih => intro s; simp [drainReadOps, ih, invokeReadCb]

@[simp] theorem drainReadOps_outboxHead (ops : List ReadOp) :
    ∀ s : Conn, (drainReadOps s ops).outboxHead = s.outboxHead := by
  induction ops with
  | nil => intro s; rfl
  | cons op rest ih => intro s; simp [drainReadOps, ih, invokeReadCb]

@[simp] theorem drainReadOps_outboxTail (ops : List ReadOp) :
    ∀ s : Conn, (drainReadOps s ops).outboxTail = s.outboxTail := by
  induction ops with
  | nil => intro s; rfl
  | cons op rest ih => intro s; simp [drainReadOps, ih, invokeReadCb]

@[simp] theorem drainReadOps_peerInboxHead (ops : List ReadOp) :
    ∀ s : Conn, (drainReadOps s ops).peerInboxHead = s.peerInboxHead := by
  induction ops with
  | nil => intro s; rfl
  | cons op rest ih => intro s; simp [drainReadOps, ih, invokeReadCb]

@[simp] theorem drainReadOps_peerInboxPtr (ops : List ReadOp) :
    ∀ s : Conn, (drainReadOps s ops).peerInboxPtr = s.peerInboxPtr := by
  induction ops with
  | nil => intro s; rfl
  | cons op rest ih => intro s; simp [drainReadOps, ih, invokeReadCb]

@[simp] theorem drainReadOps_peerInboxKey (ops : List ReadOp) :
    ∀ s : Conn, (drainReadOps s ops).peerInboxKey = s.peerInboxKey := by
  induction ops with
  | nil => intro s; rfl
  | cons op rest ih => intro s; simp [drainReadOps, ih, invokeReadCb]

@[simp] theorem drainReadOps_numBytesInFlight (ops : List ReadOp) :
    ∀ s : Conn, (drainReadOps s ops).numBytesInFlight = s.numBytesInFlight := by
  induction ops with
  | nil => intro s; rfl
  | cons op rest ih => intro s; simp [drainReadOps, ih, invokeReadCb]

@[simp] theorem drainReadOps_numWritesInFlight (ops : List ReadOp) :
    ∀ s : Conn, (drainReadOps s ops).numWritesInFlight = s.numWritesInFlight := by
  induction ops with
  | nil => intro s; rfl
  | cons op rest ih => intro s; simp [drainReadOps, ih, invokeReadCb]

@[simp] theorem drainReadOps_numAcksInFlight (ops : List ReadOp) :
    ∀ s : Conn, (drainReadOps s ops).numAcksInFlight = s.numAcksInFlight := by
  induction ops with
  | nil => intro s; rfl
  | cons op rest ih => intro s; simp [drainReadOps, ih, invokeReadCb]

@[simp] theorem drainReadOps_readOps (ops : List ReadOp) :
    ∀ s : Conn, (drainReadOps s ops).readOps = s.readOps := by
  induction ops with
  | nil => intro s; rfl
  | cons op rest ih => intro s; simp [drainReadOps, ih, invokeReadCb]

@[simp] theorem drainReadOps_writeOps (ops : List ReadOp) :
    ∀ s : Conn, (drainReadOps s ops).writeOps = s.writeOps := by
  induction ops with
  | nil => intro s; rfl
  | cons op rest ih => intro s; simp [drainReadOps, ih, invokeReadCb]

@[simp] theorem drainReadOps_nextBufferBeingRead (ops : List ReadOp) :
    ∀ s : Conn, (drainReadOps s ops).nextBufferBeingRead = s.nextBufferBeingRead := by
  induction ops with
  | nil => intro s; rfl
  | cons op rest ih => intro s; simp [drainReadOps, ih, invokeReadCb]

@[simp] theorem drainReadOps_nextBufferBeingWritten (ops : List ReadOp) :
    ∀ s : Conn, (drainReadOps s ops).nextBufferBeingWritten = s.nextBufferBeingWritten := by
  induction ops with
  | nil => intro s; rfl
  | cons op rest ih => intro s; simp [drainReadOps, ih, invokeReadCb]

@[simp] theorem drainReadOps_nextWriteCallbackToCall (ops : List ReadOp) :
    ∀ s : Conn, (drainReadOps s ops).nextWriteCallbackToCall = s.nextWriteCallbackToCall := by
  induction ops with
  | nil => intro s; rfl
  | cons op rest ih => intro s; simp [drainReadOps, ih, invokeReadCb]

@[simp] theorem drainReadOps_writeCbLog (ops : List ReadOp) :
    ∀ s : Conn, (drainReadOps s ops).writeCbLog = s.writeCbLog := by
  induction ops with
  | nil => intro s; rfl
  | cons op rest ih => intro s; simp [drainReadOps, ih, invokeReadCb]

@[simp] theorem drainReadOps_socketOpen (ops : List ReadOp) :
    ∀ s : Conn, (drainReadOps s ops).socketOpen = s.socketOpen := by
  induction ops with
  | nil => intro s; rfl
  | cons op rest ih => intro s; simp [drainReadOps, ih, invokeReadCb]

@[simp] theorem drainReadOps_cleanedUp (ops : List ReadOp) :
    ∀ s : Conn, (drainReadOps s ops).cleanedUp = s.cleanedUp := by
  induction ops with
  | nil => intro s; rfl
  | cons op rest ih => intro s; simp [drainReadOps, ih, invokeReadCb]

@[simp] theorem drainReadOps_cleanupScheduled (ops : List ReadOp) :
    ∀ s : Conn, (drainReadOps s ops).cleanupScheduled = s.cleanupScheduled := by
  induction ops with
  | nil => intro s; rfl
  | cons op rest ih => intro s; simp [drainReadOps, ih, invokeReadCb]

@[simp] theorem drainReadOps_postedWrs (ops : List ReadOp) :
    ∀ s : Conn, (drainReadOps s ops).postedWrs = s.postedWrs := by
  induction ops with
  | nil => intro s; rfl
  | cons op rest ih => intro s; simp [drainReadOps, ih, invokeReadCb]

@[simp] theorem drainWriteOps_error (ops : List WriteOp) :
    ∀ s : Conn, (drainWriteOps s ops).error = s.error := by
  induction ops with
  | nil => intro s; rfl
  | cons op rest ih => intro s; simp [drainWriteOps, ih, invokeWriteCb]

@[simp] theorem drainWriteOps_state (ops : List WriteOp) :
    ∀ s : Conn, (drainWriteOps s ops).state = s.state := by
  induction ops with
  | nil => intro s; rfl
  | cons op rest ih => intro s; simp [drainWriteOps, ih, invokeWriteCb]

@[simp] theorem drainWriteOps_inboxHead (ops : List WriteOp) :
    ∀ s : Conn, (drainWriteOps s ops).inboxHead = s.inboxHead := by
  induction ops with
  | nil => intro s; rfl
  | cons op rest ih => intro s; simp [drainWriteOps, ih, invokeWriteCb]

@[simp] theorem drainWriteOps_inboxTail (ops : List WriteOp) :
    ∀ s : Conn, (drainWriteOps s ops).inboxTail = s.inboxTail := by
  induction ops with
  | nil => intro s; rfl
  | cons op rest ih => intro s; simp [drainWriteOps, ih, invokeWriteCb]

@[simp] theorem drainWriteOps_outboxHead (ops : List WriteOp) :
    ∀ s : Conn, (drainWriteOps s ops).outboxHead = s.outboxHead := by
  induction ops with
  | nil => intro s; rfl
  | cons op rest ih => intro s; simp [drainWriteOps, ih, invokeWriteCb]

@[simp] theorem drainWriteOps_outboxTail (ops : List WriteOp) :
    ∀ s : Conn, (drainWriteOps s ops).outboxTail = s.outboxTail := by
  induction ops with
  | nil => intro s; rfl
  | cons op rest ih => intro s; simp [drainWriteOps, ih, invokeWriteCb]

@[simp] theorem drainWriteOps_peerInboxHead (ops : List WriteOp) :
    ∀ s : Conn, (drainWriteOps s ops).peerInboxHead = s.peerInboxHead := by
  induction ops with
  | nil => intro s; rfl
  | cons op rest ih => intro s; simp [drainWriteOps, ih, invokeWriteCb]

@[simp] theorem drainWriteOps_peerInboxPtr (ops : List WriteOp) :
    ∀ s : Conn, (drainWriteOps s ops).peerInboxPtr = s.peerInboxPtr := by
  induction ops with
  | nil => intro s; rfl
  | cons op rest ih => intro s; simp [drainWriteOps, ih, invokeWriteCb]

@[simp] theorem drainWriteOps_peerInboxKey (ops : List WriteOp) :
    ∀ s : Conn, (drainWriteOps s ops).peerInboxKey = s.peerInboxKey := by
  induction ops with
  | nil => intro s; rfl
  | cons op rest ih => intro s; simp [drainWriteOps, ih, invokeWriteCb]

@[simp] theorem drainWriteOps_numBytesInFlight (ops : List WriteOp) :
    ∀ s : Conn, (drainWriteOps s ops).numBytesInFlight = s.numBytesInFlight := by
  induction ops with
  | nil => intro s; rfl
  | cons op rest ih => intro s; simp [drainWriteOps, ih, invokeWriteCb]

@[simp] theorem drainWriteOps_numWritesInFlight (ops : List WriteOp) :
    ∀ s : Conn, (drainWriteOps s ops).numWritesInFlight = s.numWritesInFlight := by
  induction ops with
  | nil => intro s; rfl
  | cons op rest ih => intro s; simp [drainWriteOps, ih, invokeWriteCb]

@[simp] theorem drainWriteOps_numAcksInFlight (ops : List WriteOp) :
    ∀ s : Conn, (drainWriteOps s ops).numAcksInFlight = s.numAcksInFlight := by
  induction ops with
  | nil => intro s; rfl
  | cons op rest ih => intro s; simp [drainWriteOps, ih, invokeWriteCb]

@[simp] theorem drainWriteOps_readOps (ops : List WriteOp) :
    ∀ s : Conn, (drainWriteOps s ops).readOps = s.readOps := by
  induction ops with
  | nil => intro s; rfl
  | cons op rest ih => intro s; simp [drainWriteOps, ih, invokeWriteCb]

@[simp] theorem drainWriteOps_writeOps (ops : List WriteOp) :
    ∀ s : Conn, (drainWriteOps s ops).writeOps = s.writeOps := by
  induction ops with
  | nil => intro s; rfl
  | cons op rest ih => intro s; simp [drainWriteOps, ih, invokeWriteCb]

@[simp] theorem drainWriteOps_nextBufferBeingRead (ops : List WriteOp) :
    ∀ s : Conn, (drainWriteOps s ops).nextBufferBeingRead = s.nextBufferBeingRead := by
  induction ops with
  | nil => intro s; rfl
  | cons op rest ih => intro s; simp [drainWriteOps, ih, invokeWriteCb]

@[simp] theorem drainWriteOps_nextBufferBeingWritten (ops : List WriteOp) :
    ∀ s : Conn, (drainWriteOps s ops).nextBufferBeingWritten = s.nextBufferBeingWritten := by
  induction ops with
  | nil => intro s; rfl
  | cons op rest ih => intro s; simp [drainWriteOps, ih, invokeWriteCb]

@[simp] theorem drainWriteOps_nextReadCallbackToCall (ops : List WriteOp) :
    ∀ s : Conn, (drainWriteOps s ops).nextReadCallbackToCall = s.nextReadCallbackToCall := by
  induction ops with
  | nil => intro s; rfl
  | cons op rest ih => intro s; simp [drainWriteOps, ih, invokeWriteCb]

@[simp] theorem drainWriteOps_readCbLog (ops : List WriteOp) :
    ∀ s : Conn, (drainWriteOps s ops).readCbLog = s.readCbLog := by
  induction ops with
  | nil => intro s; rfl
  | cons op rest ih => intro s; simp [drainWriteOps, ih, invokeWriteCb]

@[simp] theorem drainWriteOps_socketOpen (ops : List WriteOp) :
    ∀ s : Conn, (drainWriteOps s ops).socketOpen = s.socketOpen := by
  induction ops with
  | nil => intro s; rfl
  | cons op rest ih => intro s; simp [drainWriteOps, ih, invokeWriteCb]

@[simp] theorem drainWriteOps_cleanedUp (ops : List WriteOp) :
    ∀ s : Conn, (drainWriteOps s ops).cleanedUp = s.cleanedUp := by
  induction ops with
  | nil => intro s; rfl
  | cons op rest ih => intro s; simp [drainWriteOps, ih, invokeWriteCb]

@[simp] theorem drainWriteOps_cleanupScheduled (ops : List WriteOp) :
    ∀ s : Conn, (drainWriteOps s ops).cleanupScheduled = s.cleanupScheduled := by
  induction ops with
  | nil => intro s; rfl
  | cons op rest ih => intro s; simp [drainWriteOps, ih, invokeWriteCb]

@[simp] theorem drainWriteOps_postedWrs (ops : List WriteOp) :
    ∀ s : Conn, (drainWriteOps s ops).postedWrs = s.postedWrs := by
  induction ops with
  | nil => intro s; rfl
  | cons op rest ih => intro s; simp [drainWriteOps, ih, invokeWriteCb]

@[simp] theorem tryCleanup_error (s : Conn) :
    (tryCleanup_ s).error = s.error := by
  unfold tryCleanup_
  split
  · split <;> rfl
  · rfl

@[simp] theorem tryCleanup_state (s : Conn) :
    (tryCleanup_ s).state = s.state := by
  unfold tryCleanup_
  split
  · split <;> rfl
  · rfl

@[simp] theorem tryCleanup_inboxHead (s : Conn) :
    (tryCleanup_ s).inboxHead = s.inboxHead := by
  unfold tryCleanup_
  split
  · split <;> rfl
  · rfl

@[simp] theorem tryCleanup_inboxTail (s : Conn) :
    (tryCleanup_ s).inboxTail = s.inboxTail := by
  unfold tryCleanup_
  split
  · split <;> rfl
  · rfl

@[simp] theorem tryCleanup_outboxHead (s : Conn) :
    (tryCleanup_ s).outboxHead = s.outboxHead := by
  unfold tryCleanup_
  split
  · split <;> rfl
  · rfl

@[simp] theorem tryCleanup_outboxTail (s : Conn) :
    (tryCleanup_ s).outboxTail = s.outboxTail := by
  unfold tryCleanup_
  split
  · split <;> rfl
  · rfl

@[simp] theorem tryCleanup_peerInboxHead (s : Conn) :
    (tryCleanup_ s).peerInboxHead = s.peerInboxHead := by
  unfold tryCleanup_
  split
  · split <;> rfl
  · rfl

@[simp] theorem tryCleanup_peerInboxPtr (s : Conn) :
    (tryCleanup_ s).peerInboxPtr = s.peerInboxPtr := by
  unfold tryCleanup_
  split
  · split <;> rfl
  · rfl

@[simp] theorem tryCleanup_peerInboxKey (s : Conn) :
    (tryCleanup_ s).peerInboxKey = s.peerInboxKey := by
  unfold tryCleanup_
  split
  · split <;> rfl
  · rfl

@[simp] theorem tryCleanup_numBytesInFlight (s : Conn) :
    (tryCleanup_ s).numBytesInFlight = s.numBytesInFlight := by
  unfold tryCleanup_
  split
  · split <;> rfl
  · rfl

@[simp] theorem tryCleanup_numWritesInFlight (s : Conn) :
    (tryCleanup_ s).numWritesInFlight = s.numWritesInFlight := by
  unfold tryCleanup_
  split
  · split <;> rfl
  · rfl

@[simp] theorem tryCleanup_numAcksInFlight (s : Conn) :
    (tryCleanup_ s).numAcksInFlight = s.numAcksInFlight := by
  unfold tryCleanup_
  split
  · split <;> rfl
  · rfl

@[simp] theorem tryCleanup_readOps (s : Conn) :
    (tryCleanup_ s).readOps = s.readOps := by
  unfold tryCleanup_
  split
  · split <;> rfl
  · rfl

@[simp] theorem tryCleanup_writeOps (s : Conn) :
    (tryCleanup_ s).writeOps = s.writeOps := by
  unfold tryCleanup_
  split
  · split <;> rfl
  · rfl

@[simp] theorem tryCleanup_nextBufferBeingRead (s : Conn) :
    (tryCleanup_ s).nextBufferBeingRead = s.nextBufferBeingRead := by
  unfold tryCleanup_
  split
  · split <;> rfl
  · rfl

@[simp] theorem tryCleanup_nextBufferBeingWritten (s : Conn) :
    (tryCleanup_ s).nextBufferBeingWritten = s.nextBufferBeingWritten := by
  unfold tryCleanup_
  split
  · split <;> rfl
  · rfl

@[simp] theorem tryCleanup_nextReadCallbackToCall (s : Conn) :
    (tryCleanup_ s).nextReadCallbackToCall = s.nextReadCallbackToCall := by
  unfold tryCleanup_
  split
  · split <;> rfl
  · rfl

@[simp] theorem tryCleanup_nextWriteCallbackToCall (s : Conn) :
    (tryCleanup_ s).nextWriteCallbackToCall = s.nextWriteCallbackToCall := by
  unfold tryCleanup_
  split
  · split <;> rfl
  · rfl

@[simp] theorem tryCleanup_readCbLog (s : Conn) :
    (tryCleanup_ s).readCbLog = s.readCbLog := by
  unfold tryCleanup_
  split
  · split <;> rfl
  · rfl

@[simp] theorem tryCleanup_writeCbLog (s : Conn) :
    (tryCleanup_ s).writeCbLog = s.writeCbLog := by
  unfold tryCleanup_
  split
  · split <;> rfl
  · rfl

@[simp] theorem tryCleanup_assertFailed (s : Conn) :
    (tryCleanup_ s).assertFailed = s.assertFailed := by
  unfold tryCleanup_
  split
  · split <;> rfl
  · rfl

@[simp] theorem tryCleanup_socketOpen (s : Conn) :
    (tryCleanup_ s).socketOpen = s.socketOpen := by
  unfold tryCleanup_
  split
  · split <;> rfl
  · rfl

@[simp] theorem tryCleanup_cleanedUp (s : Conn) :
    (tryCleanup_ s).cleanedUp = s.cleanedUp := by
  unfold tryCleanup_
  split
  · split <;> rfl
  · rfl

@[simp] theorem tryCleanup_postedWrs (s : Conn) :
    (tryCleanup_ s).postedWrs = s.postedWrs := by
  unfold tryCleanup_
  split
  · split <;> rfl
  · rfl

theorem drainReadOps_main (ops : List ReadOp) : ∀ s : Conn,
    ops.map ReadOp.seq = List.range' s.nextReadCallbackToCall ops.length →
    s.readCbLog.map ReadCbCall.seq = List.range s.nextReadCallbackToCall →
    s.assertFailed = false →
    (drainReadOps s ops).nextReadCallbackToCall =
      s.nextReadCallbackToCall + ops.length ∧
    (drainReadOps s ops).readCbLog.map ReadCbCall.seq =
      List.range ((drainReadOps s ops).nextReadCallbackToCall) ∧
    (drainReadOps s ops).assertFailed = false := by
  induction ops with
  | nil =>
    intro s _ hlog hfail
    exact ⟨rfl, hlog, hfail⟩
  | cons op rest ih =>
    intro s hseq hlog hfail
    rw [List.length_cons, List.range'_succ] at hseq
    simp only [List.map_cons, List.cons.injEq] at hseq
    obtain ⟨hop, hrest⟩ := hseq
    have h1seq : rest.map ReadOp.seq =
        List.range'
          ((invokeReadCb s op.seq s.error op.errPtr op.errLen).nextReadCallbackToCall)
          rest.length := by
      simpa [invokeReadCb] using hrest
    have h1log :
        (invokeReadCb s op.seq s.error op.errPtr op.errLen).readCbLog.map ReadCbCall.seq =
        List.range
          ((invokeReadCb s op.seq s.error op.errPtr op.errLen).nextReadCallbackToCall) := by
      simp [invokeReadCb, hop, hlog, List.range_succ]
    have h1fail :
        (invokeReadCb s op.seq s.error op.errPtr op.errLen).assertFailed = false := by
      simp [invokeReadCb, hop, hfail]
    have ihr := ih (invokeReadCb s op.seq s.error op.errPtr op.errLen) h1seq h1log h1fail
    have hunf : drainReadOps s (op :: rest) =
        drainReadOps (invokeReadCb s op.seq s.error op.errPtr op.errLen) rest := rfl
    rw [hunf]
    refine ⟨?_, ihr.2.1, ihr.2.2⟩
    rw [ihr.1]
    simp only [invokeReadCb, List.length_cons]
    omega

theorem drainWriteOps_main (ops : List WriteOp) : ∀ s : Conn,
    ops.map WriteOp.seq = List.range' s.nextWriteCallbackToCall ops.length →
    s.writeCbLog.map WriteCbCall.seq = List.range s.nextWriteCallbackToCall →
    s.assertFailed = false →
    (drainWriteOps s ops).nextWriteCallbackToCall =
      s.nextWriteCallbackToCall + ops.length ∧
    (drainWriteOps s ops).writeCbLog.map WriteCbCall.seq =
      List.range ((drainWriteOps s ops).nextWriteCallbackToCall) ∧
    (drainWriteOps s ops).assertFailed = false := by
  induction ops with
  | nil =>
    intro s _ hlog hfail
    exact ⟨rfl, hlog, hfail⟩
  | cons op rest ih =>
    intro s hseq hlog hfail
    rw [List.length_cons, List.range'_succ] at hseq
    simp only [List.map_cons, List.cons.injEq] at hseq
    obtain ⟨hop, hrest⟩ := hseq
    have h1seq : rest.map WriteOp.seq =
        List.range' ((invokeWriteCb s op.seq s.error).nextWriteCallbackToCall)
          rest.length := by
      simpa [invokeWriteCb] using hrest
    have h1log : (invokeWriteCb s op.seq s.error).writeCbLog.map WriteCbCall.seq =
        List.range ((invokeWriteCb s op.seq s.error).nextWriteCallbackToCall) := by
      simp [invokeWriteCb, hop, hlog, List.range_succ]
    have h1fail : (invokeWriteCb s op.seq s.error).assertFailed = false := by
      simp [invokeWriteCb, hop, hfail]
    have ihr := ih (invokeWriteCb s op.seq s.error) h1seq h1log h1fail
    have hunf : drainWriteOps s (op :: rest) =
        drainWriteOps (invokeWriteCb s op.seq s.error) rest := rfl
    rw [hunf]
    refine ⟨?_, ihr.2.1, ihr.2.2⟩
    rw [ihr.1]
    simp only [invokeWriteCb, List.length_cons]
    omega

@[simp] theorem handleError_error (s : Conn) :
    (handleError s).error = s.error := by
  simp only [handleError]
  split <;> simp

@[simp] theorem handleError_state (s : Conn) :
    (handleError s).state = s.state := by
  simp only [handleError]
  split <;> simp

@[simp] theorem handleError_inboxHead (s : Conn) :
    (handleError s).inboxHead = s.inboxHead := by
  simp only [handleError]
  split <;> simp

@[simp] theorem handleError_inboxTail (s : Conn) :
    (handleError s).inboxTail = s.inboxTail := by
  simp only [handleError]
  split <;> simp

@[simp] theorem handleError_outboxHead (s : Conn) :
    (handleError s).outboxHead = s.outboxHead := by
  simp only [handleError]
  split <;> simp

@[simp] theorem handleError_outboxTail (s : Conn) :
    (handleError s).outboxTail = s.outboxTail := by
  simp only [handleError]
  split <;> simp

@[simp] theorem handleError_peerInboxKey (s : Conn) :
    (handleError s).peerInboxKey = s.peerInboxKey := by
  simp only [handleError]
  split <;> simp

@[simp] theorem handleError_peerInboxPtr (s : Conn) :
    (handleError s).peerInboxPtr = s.peerInboxPtr := by
  simp only [handleError]
  split <;> simp

@[simp] theorem handleError_peerInboxHead (s : Conn) :
    (handleError s).peerInboxHead = s.peerInboxHead := by
  simp only [handleError]
  split <;> simp

@[simp] theorem handleError_numBytesInFlight (s : Conn) :
    (handleError s).numBytesInFlight = s.numBytesInFlight := by
  simp only [handleError]
  split <;> simp

@[simp] theorem handleError_numWritesInFlight (s : Conn) :
    (handleError s).numWritesInFlight = s.numWritesInFlight := by
  simp only [handleError]
  split <;> simp

@[simp] theorem handleError_numAcksInFlight (s : Conn) :
    (handleError s).numAcksInFlight = s.numAcksInFlight := by
  simp only [handleError]
  split <;> simp

@[simp] theorem handleError_nextBufferBeingRead (s : Conn) :
    (handleError s).nextBufferBeingRead = s.nextBufferBeingRead := by
  simp only [handleError]
  split <;> simp

@[simp] theorem handleError_nextBufferBeingWritten (s : Conn) :
    (handleError s).nextBufferBeingWritten = s.nextBufferBeingWritten := by
  simp only [handleError]
  split <;> simp

@[simp] theorem handleError_cleanedUp (s : Conn) :
    (handleError s).cleanedUp = s.cleanedUp := by
  simp only [handleError]
  split <;> simp

@[simp] theorem handleError_postedWrs (s : Conn) :
    (handleError s).postedWrs = s.postedWrs := by
  simp only [handleError]
  split <;> simp

@[simp] theorem handleError_readOps (s : Conn) : (handleError s).readOps = [] := by
  simp only [handleError]
  split <;> simp

@[simp] theorem handleError_writeOps (s : Conn) : (handleError s).writeOps = [] := by
  simp only [handleError]
  split <;> simp

@[simp] theorem handleError_socketOpen (s : Conn) : (handleError s).socketOpen = false := by
  simp only [handleError]
  split
  · simp
  · next h => simpa using h

theorem setError_of_some (s : Conn) (e e' : Err) (h : s.error = some e') :
    setError_ s e = s := by
  simp [setError_, h]

theorem setError_error_isSome (s : Conn) (e : Err) :
    (setError_ s e).error.isSome = true := by
  unfold setError_
  cases h : s.error with
  | some e' => simp [h]
  | none => simp

/-- Latching is absorbing: a second `setError_`, with any error, is a no-op. -/
theorem setError_setError (s : Conn) (e1 e2 : Err) :
    setError_ (setError_ s e1) e2 = setError_ s e1 := by
  cases hs : (setError_ s e1).error with
  | none =>
    exact absurd (setError_error_isSome s e1) (by simp [hs])
  | some e' => exact setError_of_some _ e2 e' hs

theorem readOp_passLen_le (op : ReadOp) (avail : Nat) :
    op.passLen avail ≤ avail := by
  cases k : op.kind <;> simp [ReadOp.passLen, k]

theorem writeOp_passLen_le (op : WriteOp) (free : Nat) :
    op.passLen free ≤ free := by
  simp only [WriteOp.passLen]
  omega

@[simp] theorem readOp_advance_seq (op : ReadOp) (avail : Nat) :
    (op.advance avail).seq = op.seq := rfl

@[simp] theorem writeOp_advance_seq (op : WriteOp) (free : Nat) :
    (op.advance free).seq = op.seq := rfl

@[simp] theorem foldlPostSpan_error (spans : List Span) :
    ∀ s : Conn, (spans.foldl postSpan s).error = s.error := by
  induction spans with
  | nil => intro s; rfl
  | cons sp rest ih => intro s; simp [ih, postSpan]

@[simp] theorem foldlPostSpan_state (spans : List Span) :
    ∀ s : Conn, (spans.foldl postSpan s).state = s.state := by
  induction spans with
  | nil => intro s; rfl
  | cons sp rest ih => intro s; simp [ih, postSpan]

@[simp] theorem foldlPostSpan_inboxHead (spans : List Span) :
    ∀ s : Conn, (spans.foldl postSpan s).inboxHead = s.inboxHead := by
  induction spans with
  | nil => intro s; rfl
  | cons sp rest ih => intro s; simp [ih, postSpan]

@[simp] theorem foldlPostSpan_inboxTail (spans : List Span) :
    ∀ s : Conn, (spans.foldl postSpan s).inboxTail = s.inboxTail := by
  induction spans with
  | nil => intro s; rfl
  | cons sp rest ih => intro s; simp [ih, postSpan]

@[simp] theorem foldlPostSpan_outboxHead (spans : List Span) :
    ∀ s : Conn, (spans.foldl postSpan s).outboxHead = s.outboxHead := by
  induction spans with
  | nil => intro s; rfl
  | cons sp rest ih => intro s; simp [ih, postSpan]

@[simp] theorem foldlPostSpan_outboxTail (spans : List Span) :
    ∀ s : Conn, (spans.foldl postSpan s).outboxTail = s.outboxTail := by
  induction spans with
  | nil => intro s; rfl
  | cons sp rest ih => intro s; simp [ih, postSpan]

@[simp] theorem foldlPostSpan_numBytesInFlight (spans : List Span) :
    ∀ s : Conn, (spans.foldl postSpan s).numBytesInFlight = s.numBytesInFlight := by
  induction spans with
  | nil => intro s; rfl
  | cons sp rest ih => intro s; simp [ih, postSpan]

@[simp] theorem foldlPostSpan_numAcksInFlight (spans : List Span) :
    ∀ s : Conn, (spans.foldl postSpan s).numAcksInFlight = s.numAcksInFlight := by
  induction spans with
  | nil => intro s; rfl
  | cons sp rest ih => intro s; simp [ih, postSpan]

@[simp] theorem foldlPostSpan_readOps (spans : List Span) :
    ∀ s : Conn, (spans.foldl postSpan s).readOps = s.readOps := by
  induction spans with
  | nil => intro s; rfl
  | cons sp rest ih => intro s; simp [ih, postSpan]

@[simp] theorem foldlPostSpan_writeOps (spans : List Span) :
    ∀ s : Conn, (spans.foldl postSpan s).writeOps = s.writeOps := by
  induction spans with
  | nil => intro s; rfl
  | cons sp rest ih => intro s; simp [ih, postSpan]

@[simp] theorem foldlPostSpan_nextBufferBeingRead (spans : List Span) :
    ∀ s : Conn, (spans.foldl postSpan s).nextBufferBeingRead = s.nextBufferBeingRead := by
  induction spans with
  | nil => intro s; rfl
  | cons sp rest ih => intro s; simp [ih, postSpan]

@[simp] theorem foldlPostSpan_nextBufferBeingWritten (spans : List Span) :
    ∀ s : Conn, (spans.foldl postSpan s).nextBufferBeingWritten = s.nextBufferBeingWritten := by
  induction spans with
  | nil => intro s; rfl
  | cons sp rest ih => intro s; simp [ih, postSpan]

@[simp] theorem foldlPostSpan_nextReadCallbackToCall (spans : List Span) :
    ∀ s : Conn, (spans.foldl postSpan s).nextReadCallbackToCall = s.nextReadCallbackToCall := by
  induction spans with
  | nil => intro s; rfl
  | cons sp rest ih => intro s; simp [ih, postSpan]

@[simp] theorem foldlPostSpan_nextWriteCallbackToCall (spans : List Span) :
    ∀ s : Conn, (spans.foldl postSpan s).nextWriteCallbackToCall = s.nextWriteCallbackToCall := by
  induction spans with
  | nil => intro s; rfl
  | cons sp rest ih => intro s; simp [ih, postSpan]

@[simp] theorem foldlPostSpan_readCbLog (spans : List Span) :
    ∀ s : Conn, (spans.foldl postSpan s).readCbLog = s.readCbLog := by
  induction spans with
  | nil => intro s; rfl
  | cons sp rest ih => intro s; simp [ih, postSpan]

@[simp] theorem foldlPostSpan_writeCbLog (spans : List Span) :
    ∀ s : Conn, (spans.foldl postSpan s).writeCbLog = s.writeCbLog := by
  induction spans with
  | nil => intro s; rfl
  | cons sp rest ih => intro s; simp [ih, postSpan]

@[simp] theorem foldlPostSpan_assertFailed (spans : List Span) :
    ∀ s : Conn, (spans.foldl postSpan s).assertFailed = s.assertFailed := by
  induction spans with
  | nil => intro s; rfl
  | cons sp rest ih => intro s; simp [ih, postSpan]

@[simp] theorem foldlPostSpan_socketOpen (spans : List Span) :
    ∀ s : Conn, (spans.foldl postSpan s).socketOpen = s.socketOpen := by
  induction spans with
  | nil => intro s; rfl
  | cons sp rest ih => intro s; simp [ih, postSpan]

@[simp] theorem foldlPostSpan_cleanedUp (spans : List Span) :
    ∀ s : Conn, (spans.foldl postSpan s).cleanedUp = s.cleanedUp := by
  induction spans with
  | nil => intro s; rfl
  | cons sp rest ih => intro s; simp [ih, postSpan]

@[simp] theorem foldlPostSpan_cleanupScheduled (spans : List Span) :
    ∀ s : Conn, (spans.foldl postSpan s).cleanupScheduled = s.cleanupScheduled := by
  induction spans with
  | nil => intro s; rfl
  | cons sp rest ih => intro s; simp [ih, postSpan]

@[simp] theorem foldlPostSpan_peerInboxPtr (spans : List Span) :
    ∀ s : Conn, (spans.foldl postSpan s).peerInboxPtr = s.peerInboxPtr := by
  induction spans with
  | nil => intro s; rfl
  | cons sp rest ih => intro s; simp [ih, postSpan]

@[simp] theorem foldlPostSpan_peerInboxKey (spans : List Span) :
    ∀ s : Conn, (spans.foldl postSpan s).peerInboxKey = s.peerInboxKey := by
  induction spans with
  | nil => intro s; rfl
  | cons sp rest ih => intro s; simp [ih, postSpan]

@[simp] theorem foldlPostSpan_peerInboxHead (spans : List Span) (s : Conn) :
    (spans.foldl postSpan s).peerInboxHead = s.peerInboxHead + sumLens spans :=
  (foldl_postSpan spans s).2.1

@[simp] theorem foldlPostSpan_numWritesInFlight (spans : List Span) (s : Conn) :
    (spans.foldl postSpan s).numWritesInFlight =
      s.numWritesInFlight + spans.length :=
  (foldl_postSpan spans s).2.2.1

@[simp] theorem foldlPostSpan_postedWrs (spans : List Span) (s : Conn) :
    (spans.foldl postSpan s).postedWrs =
      s.postedWrs ++
        expectedWriteWrs s.peerInboxPtr s.peerInboxKey s.peerInboxHead spans :=
  (foldl_postSpan spans s).1

@[simp] theorem readPass_error (s : Conn) (op : ReadOp) :
    (readPass s op).error = s.error := by
  simp only [readPass]
  split <;> simp [postAckWr]

@[simp] theorem readPass_state (s : Conn) (op : ReadOp) :
    (readPass s op).state = s.state := by
  simp only [readPass]
  split <;> simp [postAckWr]

@[simp] theorem readPass_inboxHead (s : Conn) (op : ReadOp) :
    (readPass s op).inboxHead = s.inboxHead := by
  simp only [readPass]
  split <;> simp [postAckWr]

@[simp] theorem readPass_outboxHead (s : Conn) (op : ReadOp) :
    (readPass s op).outboxHead = s.outboxHead := by
  simp only [readPass]
  split <;> simp [postAckWr]

@[simp] theorem readPass_outboxTail (s : Conn) (op : ReadOp) :
    (readPass s op).outboxTail = s.outboxTail := by
  simp only [readPass]
  split <;> simp [postAckWr]

@[simp] theorem readPass_peerInboxKey (s : Conn) (op : ReadOp) :
    (readPass s op).peerInboxKey = s.peerInboxKey := by
  simp only [readPass]
  split <;> simp [postAckWr]

@[simp] theorem readPass_peerInboxPtr (s : Conn) (op : ReadOp) :
    (readPass s op).peerInboxPtr = s.peerInboxPtr := by
  simp only [readPass]
  split <;> simp [postAckWr]

@[simp] theorem readPass_peerInboxHead (s : Conn) (op : ReadOp) :
    (readPass s op).peerInboxHead = s.peerInboxHead := by
  simp only [readPass]
  split <;> simp [postAckWr]

@[simp] theorem readPass_numBytesInFlight (s : Conn) (op : ReadOp) :
    (readPass s op).numBytesInFlight = s.numBytesInFlight := by
  simp only [readPass]
  split <;> simp [postAckWr]

@[simp] theorem readPass_numWritesInFlight (s : Conn) (op : ReadOp) :
    (readPass s op).numWritesInFlight = s.numWritesInFlight := by
  simp only [readPass]
  split <;> simp [postAckWr]

@[simp] theorem readPass_readOps (s : Conn) (op : ReadOp) :
    (readPass s op).readOps = s.readOps := by
  simp only [readPass]
  split <;> simp [postAckWr]

@[simp] theorem readPass_writeOps (s : Conn) (op : ReadOp) :
    (readPass s op).writeOps = s.writeOps := by
  simp only [readPass]
  split <;> simp [postAckWr]

@[simp] theorem readPass_nextBufferBeingRead (s : Conn) (op : ReadOp) :
    (readPass s op).nextBufferBeingRead = s.nextBufferBeingRead := by
  simp only [readPass]
  split <;> simp [postAckWr]

@[simp] theorem readPass_nextBufferBeingWritten (s : Conn) (op : ReadOp) :
    (readPass s op).nextBufferBeingWritten = s.nextBufferBeingWritten := by
  simp only [readPass]
  split <;> simp [postAckWr]

@[simp] theorem readPass_nextReadCallbackToCall (s : Conn) (op : ReadOp) :
    (readPass s op).nextReadCallbackToCall = s.nextReadCallbackToCall := by
  simp only [readPass]
  split <;> simp [postAckWr]

@[simp] theorem readPass_nextWriteCallbackToCall (s : Conn) (op : ReadOp) :
    (readPass s op).nextWriteCallbackToCall = s.nextWriteCallbackToCall := by
  simp only [readPass]
  split <;> simp [postAckWr]

@[simp] theorem readPass_readCbLog (s : Conn) (op : ReadOp) :
    (readPass s op).readCbLog = s.readCbLog := by
  simp only [readPass]
  split <;> simp [postAckWr]

@[simp] theorem readPass_writeCbLog (s : Conn) (op : ReadOp) :
    (readPass s op).writeCbLog = s.writeCbLog := by
  simp only [readPass]
  split <;> simp [postAckWr]

@[simp] theorem readPass_assertFailed (s : Conn) (op : ReadOp) :
    (readPass s op).assertFailed = s.assertFailed := by
  simp only [readPass]
  split <;> simp [postAckWr]

@[simp] theorem readPass_socketOpen (s : Conn) (op : ReadOp) :
    (readPass s op).socketOpen = s.socketOpen := by
  simp only [readPass]
  split <;> simp [postAckWr]

@[simp] theorem readPass_cleanedUp (s : Conn) (op : ReadOp) :
    (readPass s op).cleanedUp = s.cleanedUp := by
  simp only [readPass]
  split <;> simp [postAckWr]

@[simp] theorem readPass_cleanupScheduled (s : Conn) (op : ReadOp) :
    (readPass s op).cleanupScheduled = s.cleanupScheduled := by
  simp only [readPass]
  split <;> simp [postAckWr]

@[simp] theorem readPass_inboxTail (s : Conn) (op : ReadOp) :
    (readPass s op).inboxTail =
      s.inboxTail + op.passLen (s.inboxHead - s.inboxTail) := by
  simp only [readPass]
  split <;> simp [postAckWr]

@[simp] theorem writePass_error (s : Conn) (op : WriteOp) :
    (writePass s op).error = s.error := by
  simp only [writePass]
  split <;> simp [postChunk]

@[simp] theorem writePass_state (s : Conn) (op : WriteOp) :
    (writePass s op).state = s.state := by
  simp only [writePass]
  split <;> simp [postChunk]

@[simp] theorem writePass_inboxHead (s : Conn) (op : WriteOp) :
    (writePass s op).inboxHead = s.inboxHead := by
  simp only [writePass]
  split <;> simp [postChunk]

@[simp] theorem writePass_inboxTail (s : Conn) (op : WriteOp) :
    (writePass s op).inboxTail = s.inboxTail := by
  simp only [writePass]
  split <;> simp [postChunk]

@[simp] theorem writePass_outboxTail (s : Conn) (op : WriteOp) :
    (writePass s op).outboxTail = s.outboxTail := by
  simp only [writePass]
  split <;> simp [postChunk]

@[simp] theorem writePass_peerInboxKey (s : Conn) (op : WriteOp) :
    (writePass s op).peerInboxKey = s.peerInboxKey := by
  simp only [writePass]
  split <;> simp [postChunk]

@[simp] theorem writePass_peerInboxPtr (s : Conn) (op : WriteOp) :
    (writePass s op).peerInboxPtr = s.peerInboxPtr := by
  simp only [writePass]
  split <;> simp [postChunk]

@[simp] theorem writePass_numAcksInFlight (s : Conn) (op : WriteOp) :
    (writePass s op).numAcksInFlight = s.numAcksInFlight := by
  simp only [writePass]
  split <;> simp [postChunk]

@[simp] theorem writePass_readOps (s : Conn) (op : WriteOp) :
    (writePass s op).readOps = s.readOps := by
  simp only [writePass]
  split <;> simp [postChunk]

@[simp] theorem writePass_writeOps (s : Conn) (op : WriteOp) :
    (writePass s op).writeOps = s.writeOps := by
  simp only [writePass]
  split <;> simp [postChunk]

@[simp] theorem writePass_nextBufferBeingRead (s : Conn) (op : WriteOp) :
    (writePass s op).nextBufferBeingRead = s.nextBufferBeingRead := by
  simp only [writePass]
  split <;> simp [postChunk]

@[simp] theorem writePass_nextBufferBeingWritten (s : Conn) (op : WriteOp) :
    (writePass s op).nextBufferBeingWritten = s.nextBufferBeingWritten := by
  simp only [writePass]
  split <;> simp [postChunk]

@[simp] theorem writePass_nextReadCallbackToCall (s : Conn) (op : WriteOp) :
    (writePass s op).nextReadCallbackToCall = s.nextReadCallbackToCall := by
  simp only [writePass]
  split <;> simp [postChunk]

@[simp] theorem writePass_nextWriteCallbackToCall (s : Conn) (op : WriteOp) :
    (writePass s op).nextWriteCallbackToCall = s.nextWriteCallbackToCall := by
  simp only [writePass]
  split <;> simp [postChunk]

@[simp] theorem writePass_readCbLog (s : Conn) (op : WriteOp) :
    (writePass s op).readCbLog = s.readCbLog := by
  simp only [writePass]
  split <;> simp [postChunk]

@[simp] theorem writePass_writeCbLog (s : Conn) (op : WriteOp) :
    (writePass s op).writeCbLog = s.writeCbLog := by
  simp only [writePass]
  split <;> simp [postChunk]

@[simp] theorem writePass_assertFailed (s : Conn) (op : WriteOp) :
    (writePass s op).assertFailed = s.assertFailed := by
  simp only [writePass]
  split <;> simp [postChunk]

@[simp] theorem writePass_socketOpen (s : Conn) (op : WriteOp) :
    (writePass s op).socketOpen = s.socketOpen := by
  simp only [writePass]
  split <;> simp [postChunk]

@[simp] theorem writePass_cleanedUp (s : Conn) (op : WriteOp) :
    (writePass s op).cleanedUp = s.cleanedUp := by
  simp only [writePass]
  split <;> simp [postChunk]

@[simp] theorem writePass_cleanupScheduled (s : Conn) (op : WriteOp) :
    (writePass s op).cleanupScheduled = s.cleanupScheduled := by
  simp only [writePass]
  split <;> simp [postChunk]

@[simp] theorem writePass_outboxHead (s : Conn) (op : WriteOp) :
    (writePass s op).outboxHead =
      s.outboxHead + op.passLen (kBufferSize - (s.outboxHead - s.outboxTail)) := by
  simp only [writePass]
  split <;> simp [postChunk]

@[simp] theorem writePass_numBytesInFlight (s : Conn) (op : WriteOp) :
    (writePass s op).numBytesInFlight =
      s.numBytesInFlight + op.passLen (kBufferSize - (s.outboxHead - s.outboxTail)) := by
  simp only [writePass]
  split
  · simp [postChunk]
  · next h =>
    simp
    omega

@[simp] theorem writePass_peerInboxHead (s : Conn) (op : WriteOp) :
    (writePass s op).peerInboxHead =
      s.peerInboxHead + op.passLen (kBufferSize - (s.outboxHead - s.outboxTail)) := by
  simp only [writePass]
  split
  · simp [postChunk, sumLens_outboxSpans]
  · next h =>
    simp
    omega

@[simp] theorem goRead_error (ops : List ReadOp) :
    ∀ s : Conn, (goRead s ops).error = s.error := by
  induction ops with
  | nil => intro s; rfl
  | cons op rest ih =>
    intro s
    simp only [goRead]
    split
    · simp [ih, invokeReadCb]
    · simp

@[simp] theorem goRead_state (ops : List ReadOp) :
    ∀ s : Conn, (goRead s ops).state = s.state := by
  induction ops with
  | nil => intro s; rfl
  | cons op rest ih =>
    intro s
    simp only [goRead]
    split
    · simp [ih, invokeReadCb]
    · simp

@[simp] theorem goRead_outboxHead (ops : List ReadOp) :
    ∀ s : Conn, (goRead s ops).outboxHead = s.outboxHead := by
  induction ops with
  | nil => intro s; rfl
  | cons op rest ih =>
    intro s
    simp only [goRead]
    split
    · simp [ih, invokeReadCb]
    · simp

@[simp] theorem goRead_outboxTail (ops : List ReadOp) :
    ∀ s : Conn, (goRead s ops).outboxTail = s.outboxTail := by
  induction ops with
  | nil => intro s; rfl
  | cons op rest ih =>
    intro s
    simp only [goRead]
    split
    · simp [ih, invokeReadCb]
    · simp

@[simp] theorem goRead_peerInboxKey (ops : List ReadOp) :
    ∀ s : Conn, (goRead s ops).peerInboxKey = s.peerInboxKey := by
  induction ops with
  | nil => intro s; rfl
  | cons op rest ih =>
    intro s
    simp only [goRead]
    split
    · simp [ih, invokeReadCb]
    · simp

@[simp] theorem goRead_peerInboxPtr (ops : List ReadOp) :
    ∀ s : Conn, (goRead s ops).peerInboxPtr = s.peerInboxPtr := by
  induction ops with
  | nil => intro s; rfl
  | cons op rest ih =>
    intro s
    simp only [goRead]
    split
    · simp [ih, invokeReadCb]
    · simp

@[simp] theorem goRead_peerInboxHead (ops : List ReadOp) :
    ∀ s : Conn, (goRead s ops).peerInboxHead = s.peerInboxHead := by
  induction ops with
  | nil => intro s; rfl
  | cons op rest ih =>
    intro s
    simp only [goRead]
    split
    · simp [ih, invokeReadCb]
    · simp

@[simp] theorem goRead_numBytesInFlight (ops : List ReadOp) :
    ∀ s : Conn, (goRead s ops).numBytesInFlight = s.numBytesInFlight := by
  induction ops with
  | nil => intro s; rfl
  | cons op rest ih =>
    intro s
    simp only [goRead]
    split
    · simp [ih, invokeReadCb]
    · simp

@[simp] theorem goRead_numWritesInFlight (ops : List ReadOp) :
    ∀ s : Conn, (goRead s ops).numWritesInFlight = s.numWritesInFlight := by
  induction ops with
  | nil => intro s; rfl
  | cons op rest ih =>
    intro s
    simp only [goRead]
    split
    · simp [ih, invokeReadCb]
    · simp

@[simp] theorem goRead_writeOps (ops : List ReadOp) :
    ∀ s : Conn, (goRead s ops).writeOps = s.writeOps := by
  induction ops with
  | nil => intro s; rfl
  | cons op rest ih =>
    intro s
    simp only [goRead]
    split
    · simp [ih, invokeReadCb]
    · simp

@[simp] theorem goRead_nextBufferBeingRead (ops : List ReadOp) :
    ∀ s : Conn, (goRead s ops).nextBufferBeingRead = s.nextBufferBeingRead := by
  induction ops with
  | nil => intro s; rfl
  | cons op rest ih =>
    intro s
    simp only [goRead]
    split
    · simp [ih, invokeReadCb]
    · simp

@[simp] theorem goRead_nextBufferBeingWritten (ops : List ReadOp) :
    ∀ s : Conn, (goRead s ops).nextBufferBeingWritten = s.nextBufferBeingWritten := by
  induction ops with
  | nil => intro s; rfl
  | cons op rest ih =>
    intro s
    simp only [goRead]
    split
    · simp [ih, invokeReadCb]
    · simp

@[simp] theorem goRead_nextWriteCallbackToCall (ops : List ReadOp) :
    ∀ s : Conn, (goRead s ops).nextWriteCallbackToCall = s.nextWriteCallbackToCall := by
  induction ops with
  | nil => intro s; rfl
  | cons op rest ih =>
    intro s
    simp only [goRead]
    split
    · simp [ih, invokeReadCb]
    · simp

@[simp] theorem goRead_writeCbLog (ops : List ReadOp) :
    ∀ s : Conn, (goRead s ops).writeCbLog = s.writeCbLog := by
  induction ops with
  | nil => intro s; rfl
  | cons op rest ih =>
    intro s
    simp only [goRead]
    split
    · simp [ih, invokeReadCb]
    · simp

@[simp] theorem goRead_socketOpen (ops : List ReadOp) :
    ∀ s : Conn, (goRead s ops).socketOpen = s.socketOpen := by
  induction ops with
  | nil => intro s; rfl
  | cons op rest ih =>
    intro s
    simp only [goRead]
    split
    · simp [ih, invokeReadCb]
    · simp

@[simp] theorem goRead_cleanedUp (ops : List ReadOp) :
    ∀ s : Conn, (goRead s ops).cleanedUp = s.cleanedUp := by
  induction ops with
  | nil => intro s; rfl
  | cons op rest ih =>
    intro s
    simp only [goRead]
    split
    · simp [ih, invokeReadCb]
    · simp

@[simp] theorem goRead_cleanupScheduled (ops : List ReadOp) :
    ∀ s : Conn, (goRead s ops).cleanupScheduled = s.cleanupScheduled := by
  induction ops with
  | nil => intro s; rfl
  | cons op rest ih =>
    intro s
    simp only [goRead]
    split
    · simp [ih, invokeReadCb]
    · simp

@[simp] theorem goRead_inboxHead (ops : List ReadOp) :
    ∀ s : Conn, (goRead s ops).inboxHead = s.inboxHead := by
  induction ops with
  | nil => intro s; rfl
  | cons op rest ih =>
    intro s
    simp only [goRead]
    split
    · simp [ih, invokeReadCb]
    · simp

@[simp] theorem goWrite_error (ops : List WriteOp) :
    ∀ s : Conn, (goWrite s ops).error = s.error := by
  induction ops with
  | nil => intro s; rfl
  | cons op rest ih =>
    intro s
    simp only [goWrite]
    split
    · simp [ih, invokeWriteCb]
    · simp

@[simp] theorem goWrite_state (ops : List WriteOp) :
    ∀ s : Conn, (goWrite s ops).state = s.state := by
  induction ops with
  | nil => intro s; rfl
  | cons op rest ih =>
    intro s
    simp only [goWrite]
    split
    · simp [ih, invokeWriteCb]
    · simp

@[simp] theorem goWrite_inboxHead (ops : List WriteOp) :
    ∀ s : Conn, (goWrite s ops).inboxHead = s.inboxHead := by
  induction ops with
  | nil => intro s; rfl
  | cons op rest ih =>
    intro s
    simp only [goWrite]
    split
    · simp [ih, invokeWriteCb]
    · simp

@[simp] theorem goWrite_inboxTail (ops : List WriteOp) :
    ∀ s : Conn, (goWrite s ops).inboxTail = s.inboxTail := by
  induction ops with
  | nil => intro s; rfl
  | cons op rest ih =>
    intro s
    simp only [goWrite]
    split
    · simp [ih, invokeWriteCb]
    · simp

@[simp] theorem goWrite_outboxTail (ops : List WriteOp) :
    ∀ s : Conn, (goWrite s ops).outboxTail = s.outboxTail := by
  induction ops with
  | nil => intro s; rfl
  | cons op rest ih =>
    intro s
    simp only [goWrite]
    split
    · simp [ih, invokeWriteCb]
    · simp

@[simp] theorem goWrite_peerInboxKey (ops : List WriteOp) :
    ∀ s : Conn, (goWrite s ops).peerInboxKey = s.peerInboxKey := by
  induction ops with
  | nil => intro s; rfl
  | cons op rest ih =>
    intro s
    simp only [goWrite]
    split
    · simp [ih, invokeWriteCb]
    · simp

@[simp] theorem goWrite_peerInboxPtr (ops : List WriteOp) :
    ∀ s : Conn, (goWrite s ops).peerInboxPtr = s.peerInboxPtr := by
  induction ops with
  | nil => intro s; rfl
  | cons op rest ih =>
    intro s
    simp only [goWrite]
    split
    · simp [ih, invokeWriteCb]
    · simp

@[simp] theorem goWrite_numAcksInFlight (ops : List WriteOp) :
    ∀ s : Conn, (goWrite s ops).numAcksInFlight = s.numAcksInFlight := by
  induction ops with
  | nil => intro s; rfl
  | cons op rest ih =>
    intro s
    simp only [goWrite]
    split
    · simp [ih, invokeWriteCb]
    · simp

@[simp] theorem goWrite_readOps (ops : List WriteOp) :
    ∀ s : Conn, (goWrite s ops).readOps = s.readOps := by
  induction ops with
  | nil => intro s; rfl
  | cons op rest ih =>
    intro s
    simp only [goWrite]
    split
    · simp [ih, invokeWriteCb]
    · simp

@[simp] theorem goWrite_nextBufferBeingRead (ops : List WriteOp) :
    ∀ s : Conn, (goWrite s ops).nextBufferBeingRead = s.nextBufferBeingRead := by
  induction ops with
  | nil => intro s; rfl
  | cons op rest ih =>
    intro s
    simp only [goWrite]
    split
    · simp [ih, invokeWriteCb]
    · simp

@[simp] theorem goWrite_nextBufferBeingWritten (ops : List WriteOp) :
    ∀ s : Conn, (goWrite s ops).nextBufferBeingWritten = s.nextBufferBeingWritten := by
  induction ops with
  | nil => intro s; rfl
  | cons op rest ih =>
    intro s
    simp only [goWrite]
    split
    · simp [ih, invokeWriteCb]
    · simp

@[simp] theorem goWrite_nextReadCallbackToCall (ops : List WriteOp) :
    ∀ s : Conn, (goWrite s ops).nextReadCallbackToCall = s.nextReadCallbackToCall := by
  induction ops with
  | nil => intro s; rfl
  | cons op rest ih =>
    intro s
    simp only [goWrite]
    split
    · simp [ih, invokeWriteCb]
    · simp

@[simp] theorem goWrite_readCbLog (ops : List WriteOp) :
    ∀ s : Conn, (goWrite s ops).readCbLog = s.readCbLog := by
  induction ops with
  | nil => intro s; rfl
  | cons op rest ih =>
    intro s
    simp only [goWrite]
    split
    · simp [ih, invokeWriteCb]
    · simp

@[simp] theorem goWrite_socketOpen (ops : List WriteOp) :
    ∀ s : Conn, (goWrite s ops).socketOpen = s.socketOpen := by
  induction ops with
  | nil => intro s; rfl
  | cons op rest ih =>
    intro s
    simp only [goWrite]
    split
    · simp [ih, invokeWriteCb]
    · simp

@[simp] theorem goWrite_cleanedUp (ops : List WriteOp) :
    ∀ s : Conn, (goWrite s ops).cleanedUp = s.cleanedUp := by
  induction ops with
  | nil => intro s; rfl
  | cons op rest ih =>
    intro s
    simp only [goWrite]
    split
    · simp [ih, invokeWriteCb]
    · simp

@[simp] theorem goWrite_cleanupScheduled (ops : List WriteOp) :
    ∀ s : Conn, (goWrite s ops).cleanupScheduled = s.cleanupScheduled := by
  induction ops with
  | nil => intro s; rfl
  | cons op rest ih =>
    intro s
    simp only [goWrite]
    split
    · simp [ih, invokeWriteCb]
    · simp


/-- The read loop preserves the queue/sequence-number discipline: queued
sequence numbers stay consecutive starting at the next-callback counter,
the callback log stays exactly the in-order prefix of sequence numbers, the
DCHECK never fires, and the inbox tail moves forward without passing the
head. -/
theorem goRead_main (ops : List ReadOp) : ∀ s : Conn,
    ops.map ReadOp.seq = List.range' s.nextReadCallbackToCall ops.length →
    s.readCbLog.map ReadCbCall.seq = List.range s.nextReadCallbackToCall →
    s.assertFailed = false →
    s.inboxTail ≤ s.inboxHead →
    (goRead s ops).readOps.map ReadOp.seq =
      List.range' ((goRead s ops).nextReadCallbackToCall)
        (goRead s ops).readOps.length ∧
    (goRead s ops).nextReadCallbackToCall + (goRead s ops).readOps.length =
      s.nextReadCallbackToCall + ops.length ∧
    (goRead s ops).readCbLog.map ReadCbCall.seq =
      List.range ((goRead s ops).nextReadCallbackToCall) ∧
    (goRead s ops).assertFailed = false ∧
    s.inboxTail ≤ (goRead s ops).inboxTail ∧
    (goRead s ops).inboxTail ≤ s.inboxHead := by
  induction ops with
  | nil =>
    intro s hseq hlog hfail htl
    exact ⟨by simp [goRead], rfl, hlog, hfail, Nat.le_refl _, htl⟩
  | cons op rest ih =>
    intro s hseq hlog hfail htl
    rw [List.length_cons, List.range'_succ] at hseq
    simp only [List.map_cons, List.cons.injEq] at hseq
    obtain ⟨hop, hrest⟩ := hseq
    have hlen : op.passLen (s.inboxHead - s.inboxTail) ≤
        s.inboxHead - s.inboxTail :=
      readOp_passLen_le op _
    simp only [goRead]
    split
    · set B := invokeReadCb (readPass s op)
        (op.advance (s.inboxHead - s.inboxTail)).seq none
        (op.advance (s.inboxHead - s.inboxTail)).donePtr
        (op.advance (s.inboxHead - s.inboxTail)).doneLen with hB
      have e1 : B.nextReadCallbackToCall = s.nextReadCallbackToCall + 1 := by
        rw [hB]
        simp [invokeReadCb]
      have e2 : B.inboxTail =
          s.inboxTail + op.passLen (s.inboxHead - s.inboxTail) := by
        rw [hB]
        simp [invokeReadCb]
      have e3 : B.inboxHead = s.inboxHead := by
        rw [hB]
        simp [invokeReadCb]
      have h1 : rest.map ReadOp.seq =
          List.range' B.nextReadCallbackToCall rest.length := by
        rw [e1]
        exact hrest
      have h2 : B.readCbLog.map ReadCbCall.seq =
          List.range B.nextReadCallbackToCall := by
        rw [hB]
        simp [invokeReadCb, hop, hlog, List.range_succ]
      have h3 : B.assertFailed = false := by
        rw [hB]
        simp [invokeReadCb, hop, hfail]
      have h4 : B.inboxTail ≤ B.inboxHead := by
        rw [e2, e3]
        omega
      obtain ⟨c1, c2, c3, c4, c5, c6⟩ := ih B h1 h2 h3 h4
      rw [e1] at c2
      rw [e2] at c5
      rw [e3] at c6
      refine ⟨c1, ?_, c3, c4, ?_, ?_⟩
      · simp only [List.length_cons]
        omega
      · omega
      · omega
    · refine ⟨?_, ?_, ?_, ?_, ?_, ?_⟩
      · simp [hop, hrest, List.range'_succ]
      · simp
      · simpa using hlog
      · simpa using hfail
      · simp
      · simp
        omega

/-- The write loop preserves the queue/sequence-number discipline and the
outbox accounting: occupancy never exceeds the capacity, the in-flight byte
count always equals the occupancy, and the local view of the peer inbox head
always equals the outbox head. -/
theorem goWrite_main (ops : List WriteOp) : ∀ s : Conn,
    ops.map WriteOp.seq = List.range' s.nextWriteCallbackToCall ops.length →
    s.writeCbLog.map WriteCbCall.seq = List.range s.nextWriteCallbackToCall →
    s.assertFailed = false →
    s.outboxTail ≤ s.outboxHead →
    s.outboxHead - s.outboxTail ≤ kBufferSize →
    s.numBytesInFlight = s.outboxHead - s.outboxTail →
    s.peerInboxHead = s.outboxHead →
    (goWrite s ops).writeOps.map WriteOp.seq =
      List.range' ((goWrite s ops).nextWriteCallbackToCall)
        (goWrite s ops).writeOps.length ∧
    (goWrite s ops).nextWriteCallbackToCall + (goWrite s ops).writeOps.length =
      s.nextWriteCallbackToCall + ops.length ∧
    (goWrite s ops).writeCbLog.map WriteCbCall.seq =
      List.range ((goWrite s ops).nextWriteCallbackToCall) ∧
    (goWrite s ops).assertFailed = false ∧
    (goWrite s ops).outboxTail ≤ (goWrite s ops).outboxHead ∧
    (goWrite s ops).outboxHead - (goWrite s ops).outboxTail ≤ kBufferSize ∧
    (goWrite s ops).numBytesInFlight =
      (goWrite s ops).outboxHead - (goWrite s ops).outboxTail ∧
    (goWrite s ops).peerInboxHead = (goWrite s ops).outboxHead := by
  induction ops with
  | nil =>
    intro s hseq hlog hfail hle hcap hfly hpeer
    exact ⟨by simp [goWrite], rfl, hlog, hfail, hle, hcap, hfly, hpeer⟩
  | cons op rest ih =>
    intro s hseq hlog hfail hle hcap hfly hpeer
    rw [List.length_cons, List.range'_succ] at hseq
    simp only [List.map_cons, List.cons.injEq] at hseq
    obtain ⟨hop, hrest⟩ := hseq
    have hlen : op.passLen (kBufferSize - (s.outboxHead - s.outboxTail)) ≤
        kBufferSize - (s.outboxHead - s.outboxTail) :=
      writeOp_passLen_le op _
    simp only [goWrite]
    split
    · set B := invokeWriteCb (writePass s op)
        (op.advance (kBufferSize - (s.outboxHead - s.outboxTail))).seq none
        with hB
      have e1 : B.nextWriteCallbackToCall = s.nextWriteCallbackToCall + 1 := by
        rw [hB]
        simp [invokeWriteCb]
      have e2 : B.outboxHead = s.outboxHead +
          op.passLen (kBufferSize - (s.outboxHead - s.outboxTail)) := by
        rw [hB]
        simp [invokeWriteCb]
      have e3 : B.outboxTail = s.outboxTail := by
        rw [hB]
        simp [invokeWriteCb]
      have e4 : B.numBytesInFlight = s.numBytesInFlight +
          op.passLen (kBufferSize - (s.outboxHead - s.outboxTail)) := by
        rw [hB]
        simp [invokeWriteCb]
      have e5 : B.peerInboxHead = s.peerInboxHead +
          op.passLen (kBufferSize - (s.outboxHead - s.outboxTail)) := by
        rw [hB]
        simp [invokeWriteCb]
      have h1 : rest.map WriteOp.seq =
          List.range' B.nextWriteCallbackToCall rest.length := by
        rw [e1]
        exact hrest
      have h2 : B.writeCbLog.map WriteCbCall.seq =
          List.range B.nextWriteCallbackToCall := by
        rw [hB]
        simp [invokeWriteCb, hop, hlog, List.range_succ]
      have h3 : B.assertFailed = false := by
        rw [hB]
        simp [invokeWriteCb, hop, hfail]
      have h4 : B.outboxTail ≤ B.outboxHead := by
        rw [e2, e3]
        omega
      have h5 : B.outboxHead - B.outboxTail ≤ kBufferSize := by
        rw [e2, e3]
        omega
      have h6 : B.numBytesInFlight = B.outboxHead - B.outboxTail := by
        rw [e2, e3, e4]
        omega
      have h7 : B.peerInboxHead = B.outboxHead := by
        rw [e2, e5]
        omega
      obtain ⟨c1, c2, c3, c4, c5, c6, c7, c8⟩ := ih B h1 h2 h3 h4 h5 h6 h7
      rw [e1] at c2
      refine ⟨c1, ?_, c3, c4, c5, c6, c7, c8⟩
      simp only [List.length_cons]
      omega
    · refine ⟨?_, ?_, ?_, ?_, ?_, ?_, ?_, ?_⟩
      · simp [hop, hrest, List.range'_succ]
      · simp
      · simpa using hlog
      · simpa using hfail
      · simp
        omega
      · simp
        omega
      · simp
        omega
      · simp
        omega


/-- The reachability invariant of one connection: queued operations carry
consecutive sequence numbers starting at the next-callback counter, the
submission counters equal the callback counters plus the queue lengths, an
error implies drained queues, the DCHECK never fired, the callback logs are
exactly the in-order prefixes of sequence numbers, and the ring-buffer /
flow-control accounting holds. -/
structure Inv (s : Conn) : Prop where
  rseq : s.readOps.map ReadOp.seq =
    List.range' s.nextReadCallbackToCall s.readOps.length
  rcount : s.nextBufferBeingRead = s.nextReadCallbackToCall + s.readOps.length
  wseq : s.writeOps.map WriteOp.seq =
    List.range' s.nextWriteCallbackToCall s.writeOps.length
  wcount : s.nextBufferBeingWritten =
    s.nextWriteCallbackToCall + s.writeOps.length
  errEmptyR : s.error.isSome = true → s.readOps = []
  errEmptyW : s.error.isSome = true → s.writeOps = []
  noFail : s.assertFailed = false
  rlog : s.readCbLog.map ReadCbCall.seq = List.range s.nextReadCallbackToCall
  wlog : s.writeCbLog.map WriteCbCall.seq = List.range s.nextWriteCallbackToCall
  obLe : s.outboxTail ≤ s.outboxHead
  obCap : s.outboxHead - s.outboxTail ≤ kBufferSize
  obFly : s.numBytesInFlight = s.outboxHead - s.outboxTail
  peerEq : s.peerInboxHead = s.outboxHead
  ibLe : s.inboxTail ≤ s.inboxHead
  ibCap : s.inboxHead - s.inboxTail ≤ kBufferSize

theorem inv_init : Inv initConn := by
  constructor <;> simp [initConn]

theorem inv_tryCleanup (s : Conn) (hv : Inv s) : Inv (tryCleanup_ s) :=
  ⟨by simpa using hv.rseq, by simpa using hv.rcount, by simpa using hv.wseq,
   by simpa using hv.wcount, by simpa using hv.errEmptyR,
   by simpa using hv.errEmptyW, by simpa using hv.noFail,
   by simpa using hv.rlog, by simpa using hv.wlog, by simpa using hv.obLe,
   by simpa using hv.obCap, by simpa using hv.obFly, by simpa using hv.peerEq,
   by simpa using hv.ibLe, by simpa using hv.ibCap⟩

theorem processRead_inv (s : Conn) (hv : Inv s) :
    Inv (processReadOperationsFromLoop s) := by
  unfold processReadOperationsFromLoop
  split
  · obtain ⟨c1, c2, c3, c4, c5, c6⟩ :=
      goRead_main s.readOps s hv.rseq hv.rlog hv.noFail hv.ibLe
    have hrc := hv.rcount
    have hic := hv.ibCap
    have hil := hv.ibLe
    refine ⟨c1, ?_, ?_, ?_, ?_, ?_, c4, c3, ?_, ?_, ?_, ?_, ?_, ?_, ?_⟩
    · simp only [goRead_nextBufferBeingRead]
      omega
    · simpa using hv.wseq
    · simpa using hv.wcount
    · intro h
      have h0 : s.error.isSome = true := by simpa using h
      have he : s.readOps = [] := hv.errEmptyR h0
      rw [he]
      simp [goRead]
    · intro h
      have h0 : s.error.isSome = true := by simpa using h
      simpa using hv.errEmptyW h0
    · simpa using hv.wlog
    · simpa using hv.obLe
    · simpa using hv.obCap
    · simpa using hv.obFly
    · simpa using hv.peerEq
    · simpa using c6
    · simp only [goRead_inboxHead]
      omega
  · exact hv

theorem processWrite_inv (s : Conn) (hv : Inv s) :
    Inv (processWriteOperationsFromLoop s) := by
  unfold processWriteOperationsFromLoop
  split
  · obtain ⟨c1, c2, c3, c4, c5, c6, c7, c8⟩ :=
      goWrite_main s.writeOps s hv.wseq hv.wlog hv.noFail hv.obLe hv.obCap
        hv.obFly hv.peerEq
    have hwc := hv.wcount
    refine ⟨?_, ?_, c1, ?_, ?_, ?_, c4, ?_, c3, c5, c6, c7, c8, ?_, ?_⟩
    · simpa using hv.rseq
    · simpa using hv.rcount
    · simp only [goWrite_nextBufferBeingWritten]
      omega
    · intro h
      have h0 : s.error.isSome = true := by simpa using h
      simpa using hv.errEmptyR h0
    · intro h
      have h0 : s.error.isSome = true := by simpa using h
      have he : s.writeOps = [] := hv.errEmptyW h0
      rw [he]
      simp [goWrite]
    · simpa using hv.rlog
    · simpa using hv.ibLe
    · simpa using hv.ibCap
  · exact hv

/-- Callback accounting across `handleError`: every queued callback is
invoked (in order) with the latched error, so both invocation counters catch
up with the submission counters, the logs remain in-order prefixes, and the
DCHECK still never fires. -/
theorem handleError_main (t : Conn)
    (hseqR : t.readOps.map ReadOp.seq =
      List.range' t.nextReadCallbackToCall t.readOps.length)
    (hseqW : t.writeOps.map WriteOp.seq =
      List.range' t.nextWriteCallbackToCall t.writeOps.length)
    (hlogR : t.readCbLog.map ReadCbCall.seq =
      List.range t.nextReadCallbackToCall)
    (hlogW : t.writeCbLog.map WriteCbCall.seq =
      List.range t.nextWriteCallbackToCall)
    (hfail : t.assertFailed = false) :
    (handleError t).nextReadCallbackToCall =
      t.nextReadCallbackToCall + t.readOps.length ∧
    (handleError t).readCbLog.map ReadCbCall.seq =
      List.range ((handleError t).nextReadCallbackToCall) ∧
    (handleError t).nextWriteCallbackToCall =
      t.nextWriteCallbackToCall + t.writeOps.length ∧
    (handleError t).writeCbLog.map WriteCbCall.seq =
      List.range ((handleError t).nextWriteCallbackToCall) ∧
    (handleError t).assertFailed = false := by
  obtain ⟨r1, r2, r3⟩ := drainReadOps_main t.readOps t hseqR hlogR hfail
  obtain ⟨w1, w2, w3⟩ := drainWriteOps_main
    (({ drainReadOps t t.readOps with readOps := [] } : Conn)).writeOps
    { drainReadOps t t.readOps with readOps := [] }
    (by simpa using hseqW) (by simpa using hlogW) (by simpa using r3)
  simp only [handleError]
  simp [r1, r2, r3] at w1 w2 w3
  refine ⟨?_, ?_, ?_, ?_, ?_⟩ <;> split <;>
    simp [r1, r2, r3, w1, w2, w3]

theorem setError_inv (s : Conn) (e : Err) (hv : Inv s) :
    Inv (setError_ s e) := by
  simp only [setError_]
  split
  · exact hv
  · obtain ⟨m1, m2, m3, m4, m5⟩ :=
      handleError_main { s with error := some e } hv.rseq hv.wseq hv.rlog
        hv.wlog hv.noFail
    have h1 := hv.rcount
    have h2 := hv.wcount
    refine ⟨?_, ?_, ?_, ?_, fun _ => handleError_readOps _,
      fun _ => handleError_writeOps _, m5, m2, m4, ?_, ?_, ?_, ?_, ?_, ?_⟩
    · simp
    · simp only [handleError_nextBufferBeingRead, handleError_readOps,
        List.length_nil, m1]
      simp
      omega
    · simp
    · simp only [handleError_nextBufferBeingWritten, handleError_writeOps,
        List.length_nil, m3]
      simp
      omega
    · simpa using hv.obLe
    · simpa using hv.obCap
    · simpa using hv.obFly
    · simpa using hv.peerEq
    · simpa using hv.ibLe
    · simpa using hv.ibCap

theorem inv_submitRead_err (s : Conn) (e0 : Err) (p : Option Nat) (l : Nat)
    (hv : Inv s) (h : s.error = some e0) :
    Inv (invokeReadCb { s with nextBufferBeingRead := s.nextBufferBeingRead + 1 }
      s.nextBufferBeingRead (some e0) p l) := by
  have hre : s.readOps = [] := hv.errEmptyR (by simp [h])
  have hrc := hv.rcount
  have hseq : s.nextBufferBeingRead = s.nextReadCallbackToCall := by
    rw [hrc, hre]
    simp
  exact ⟨by simp [invokeReadCb, hre], by simp [invokeReadCb, hre, hseq],
    hv.wseq, hv.wcount, fun _ => hre,
    fun _ => hv.errEmptyW (by simp [h]),
    by simp [invokeReadCb, hseq, hv.noFail],
    by simp [invokeReadCb, hseq, hv.rlog, List.range_succ],
    hv.wlog, hv.obLe, hv.obCap, hv.obFly, hv.peerEq, hv.ibLe, hv.ibCap⟩

theorem inv_submitWrite_err (s : Conn) (e0 : Err) (hv : Inv s)
    (h : s.error = some e0) :
    Inv (invokeWriteCb
      { s with nextBufferBeingWritten := s.nextBufferBeingWritten + 1 }
      s.nextBufferBeingWritten (some e0)) := by
  have hwe : s.writeOps = [] := hv.errEmptyW (by simp [h])
  have hwc := hv.wcount
  have hseq : s.nextBufferBeingWritten = s.nextWriteCallbackToCall := by
    rw [hwc, hwe]
    simp
  exact ⟨hv.rseq, hv.rcount, by simp [invokeWriteCb, hwe],
    by simp [invokeWriteCb, hwe, hseq],
    fun _ => hv.errEmptyR (by simp [h]), fun _ => hwe,
    by simp [invokeWriteCb, hseq, hv.noFail], hv.rlog,
    by simp [invokeWriteCb, hseq, hv.wlog, List.range_succ],
    hv.obLe, hv.obCap, hv.obFly, hv.peerEq, hv.ibLe, hv.ibCap⟩

theorem inv_submitRead_ok (s : Conn) (k : RKind) (hv : Inv s)
    (h : s.error = none) :
    Inv (processReadOperationsFromLoop
      { s with nextBufferBeingRead := s.nextBufferBeingRead + 1,
               readOps := s.readOps ++ [⟨s.nextBufferBeingRead, k, 0⟩] }) := by
  apply processRead_inv
  have hrc := hv.rcount
  refine ⟨?_, ?_, hv.wseq, hv.wcount, ?_, ?_, hv.noFail, hv.rlog, hv.wlog,
    hv.obLe, hv.obCap, hv.obFly, hv.peerEq, hv.ibLe, hv.ibCap⟩
  · simp [hv.rseq, hrc, List.range'_concat]
  · simp
    omega
  · intro hh
    simp [h] at hh
  · intro hh
    simp [h] at hh

theorem inv_submitWrite_ok (s : Conn) (total : Nat) (hv : Inv s)
    (h : s.error = none) :
    Inv (processWriteOperationsFromLoop
      { s with nextBufferBeingWritten := s.nextBufferBeingWritten + 1,
               writeOps := s.writeOps ++ [⟨s.nextBufferBeingWritten, total, 0⟩] }) := by
  apply processWrite_inv
  have hwc := hv.wcount
  refine ⟨hv.rseq, hv.rcount, ?_, ?_, ?_, ?_, hv.noFail, hv.rlog, hv.wlog,
    hv.obLe, hv.obCap, hv.obFly, hv.peerEq, hv.ibLe, hv.ibCap⟩
  · simp [hv.wseq, hwc, List.range'_concat]
  · simp
    omega
  · intro hh
    simp [h] at hh
  · intro hh
    simp [h] at hh

/-- One step of the event system preserves the invariant. -/
theorem step_inv (s s' : Conn) (e : Event) (hv : Inv s)
    (hs : stepF s e = some s') : Inv s' := by
  cases e with
  | initOk =>
    simp only [stepF] at hs
    split at hs
    · simp only [Option.some.injEq] at hs
      subst hs
      exact ⟨hv.rseq, hv.rcount, hv.wseq, hv.wcount, hv.errEmptyR,
        hv.errEmptyW, hv.noFail, hv.rlog, hv.wlog, hv.obLe, hv.obCap,
        hv.obFly, hv.peerEq, hv.ibLe, hv.ibCap⟩
    · cases hs
  | initFail err =>
    simp only [stepF] at hs
    split at hs
    · simp only [Option.some.injEq] at hs
      subst hs
      exact setError_inv s err hv
    · cases hs
  | epollOutOk =>
    simp only [stepF] at hs
    split at hs
    · simp only [Option.some.injEq] at hs
      subst hs
      exact ⟨hv.rseq, hv.rcount, hv.wseq, hv.wcount, hv.errEmptyR,
        hv.errEmptyW, hv.noFail, hv.rlog, hv.wlog, hv.obLe, hv.obCap,
        hv.obFly, hv.peerEq, hv.ibLe, hv.ibCap⟩
    · cases hs
  | epollOutShort actual =>
    simp only [stepF] at hs
    split at hs
    · simp only [Option.some.injEq] at hs
      subst hs
      exact setError_inv s _ hv
    · cases hs
  | epollInOk pPtr pKey =>
    simp only [stepF] at hs
    split at hs
    · simp only [Option.some.injEq] at hs
      subst hs
      simp only [establish]
      apply processRead_inv
      apply processWrite_inv
      exact ⟨hv.rseq, hv.rcount, hv.wseq, hv.wcount, hv.errEmptyR,
        hv.errEmptyW, hv.noFail, hv.rlog, hv.wlog, hv.obLe, hv.obCap,
        hv.obFly, hv.peerEq, hv.ibLe, hv.ibCap⟩
    · cases hs
  | epollInShort actual =>
    simp only [stepF] at hs
    split at hs
    · simp only [Option.some.injEq] at hs
      subst hs
      exact setError_inv s _ hv
    · cases hs
  | epollInEof =>
    simp only [stepF] at hs
    split at hs
    · simp only [Option.some.injEq] at hs
      subst hs
      exact setError_inv s _ hv
    · cases hs
  | epollErr errno =>
    simp only [stepF] at hs
    split at hs
    · simp only [Option.some.injEq] at hs
      subst hs
      exact setError_inv s _ hv
    · cases hs
  | epollHup =>
    simp only [stepF] at hs
    split at hs
    · simp only [Option.some.injEq] at hs
      subst hs
      exact setError_inv s _ hv
    · cases hs
  | submitReadSized ptr len =>
    simp only [stepF, Option.some.injEq] at hs
    subst hs
    simp only [readFromLoopSized]
    split
    · rename_i e0 heq
      exact inv_submitRead_err s e0 (some ptr) len hv heq
    · rename_i heq
      exact inv_submitRead_ok s (.sized ptr len) hv heq
  | submitReadUnsized =>
    simp only [stepF, Option.some.injEq] at hs
    subst hs
    simp only [readFromLoopUnsized]
    split
    · rename_i e0 heq
      exact inv_submitRead_err s e0 none 0 hv heq
    · rename_i heq
      exact inv_submitRead_ok s .unsized hv heq
  | submitReadNop total =>
    simp only [stepF, Option.some.injEq] at hs
    subst hs
    simp only [readFromLoopNop]
    split
    · rename_i e0 heq
      exact inv_submitRead_err s e0 none 0 hv heq
    · rename_i heq
      exact inv_submitRead_ok s (.nop total) hv heq
  | submitWriteRaw total =>
    simp only [stepF, Option.some.injEq] at hs
    subst hs
    simp only [writeFromLoopRaw]
    split
    · rename_i e0 heq
      exact inv_submitWrite_err s e0 hv heq
    · rename_i heq
      exact inv_submitWrite_ok s total hv heq
  | submitWriteNop total =>
    simp only [stepF, Option.some.injEq] at hs
    subst hs
    simp only [writeFromLoopNop]
    split
    · rename_i e0 heq
      exact inv_submitWrite_err s e0 hv heq
    · rename_i heq
      exact inv_submitWrite_ok s total hv heq
  | remoteProduced len =>
    simp only [stepF] at hs
    split at hs
    · rename_i hg
      obtain ⟨hg1, hg2, hg3, hg4⟩ := hg
      simp only [Option.some.injEq] at hs
      subst hs
      simp only [onRemoteProducedData]
      apply processRead_inv
      refine ⟨hv.rseq, hv.rcount, hv.wseq, hv.wcount, hv.errEmptyR,
        hv.errEmptyW, hv.noFail, hv.rlog, hv.wlog, hv.obLe, hv.obCap,
        hv.obFly, hv.peerEq, ?_, ?_⟩
      · have h1 := hv.ibLe
        simp
        omega
      · have h1 := hv.ibLe
        have h2 := hv.ibCap
        simp
        omega
    · cases hs
  | remoteConsumed len =>
    simp only [stepF] at hs
    split at hs
    · rename_i hg
      obtain ⟨hg1, hg2, hg3, hg4⟩ := hg
      simp only [Option.some.injEq] at hs
      subst hs
      simp only [onRemoteConsumedData]
      apply processWrite_inv
      refine ⟨hv.rseq, hv.rcount, hv.wseq, hv.wcount, hv.errEmptyR,
        hv.errEmptyW, hv.noFail, hv.rlog, hv.wlog, ?_, ?_, ?_, hv.peerEq,
        hv.ibLe, hv.ibCap⟩
      · have h1 := hv.obLe
        have h2 := hv.obFly
        simp
        omega
      · have h1 := hv.obLe
        have h2 := hv.obCap
        simp
        omega
      · have h1 := hv.obLe
        have h2 := hv.obFly
        simp
        omega
    · cases hs
  | writeCompleted =>
    simp only [stepF] at hs
    split at hs
    · simp only [Option.some.injEq] at hs
      subst hs
      simp only [onWriteCompleted]
      exact inv_tryCleanup _ ⟨hv.rseq, hv.rcount, hv.wseq, hv.wcount,
        hv.errEmptyR, hv.errEmptyW, hv.noFail, hv.rlog, hv.wlog, hv.obLe,
        hv.obCap, hv.obFly, hv.peerEq, hv.ibLe, hv.ibCap⟩
    · cases hs
  | ackCompleted =>
    simp only [stepF] at hs
    split at hs
    · simp only [Option.some.injEq] at hs
      subst hs
      simp only [onAckCompleted]
      exact inv_tryCleanup _ ⟨hv.rseq, hv.rcount, hv.wseq, hv.wcount,
        hv.errEmptyR, hv.errEmptyW, hv.noFail, hv.rlog, hv.wlog, hv.obLe,
        hv.obCap, hv.obFly, hv.peerEq, hv.ibLe, hv.ibCap⟩
    · cases hs
  | wcError status wrId =>
    simp only [stepF] at hs
    split at hs
    · simp only [Option.some.injEq] at hs
      subst hs
      simp only [onError]
      have hv1 : Inv (setError_ s (.ibvError status)) := setError_inv s _ hv
      split
      · simp only [onWriteCompleted]
        exact inv_tryCleanup _ ⟨hv1.rseq, hv1.rcount, hv1.wseq, hv1.wcount,
          hv1.errEmptyR, hv1.errEmptyW, hv1.noFail, hv1.rlog, hv1.wlog,
          hv1.obLe, hv1.obCap, hv1.obFly, hv1.peerEq, hv1.ibLe, hv1.ibCap⟩
      · split
        · simp only [onAckCompleted]
          exact inv_tryCleanup _ ⟨hv1.rseq, hv1.rcount, hv1.wseq, hv1.wcount,
            hv1.errEmptyR, hv1.errEmptyW, hv1.noFail, hv1.rlog, hv1.wlog,
            hv1.obLe, hv1.obCap, hv1.obFly, hv1.peerEq, hv1.ibLe, hv1.ibCap⟩
        · exact hv1
    · cases hs
  | closeEv =>
    simp only [stepF, Option.some.injEq] at hs
    subst hs
    exact setError_inv s _ hv
  | cleanupRun =>
    simp only [stepF] at hs
    split at hs
    · simp only [Option.some.injEq] at hs
      subst hs
      exact ⟨hv.rseq, hv.rcount, hv.wseq, hv.wcount, hv.errEmptyR,
        hv.errEmptyW, hv.noFail, hv.rlog, hv.wlog, hv.obLe, hv.obCap,
        hv.obFly, hv.peerEq, hv.ibLe, hv.ibCap⟩
    · cases hs

/-- Every reachable state satisfies the invariant. -/
theorem reachable_inv {s : Conn} (h : Reachable s) : Inv s := by
  induction h with
  | init => exact inv_init
  | step hr hstep ih => exact step_inv _ _ _ ih hstep

@[simp] theorem setError_peerInboxHead (s : Conn) (e : Err) :
    (setError_ s e).peerInboxHead = s.peerInboxHead := by
  simp only [setError_]
  split <;> simp

@[simp] theorem setError_peerInboxPtr (s : Conn) (e : Err) :
    (setError_ s e).peerInboxPtr = s.peerInboxPtr := by
  simp only [setError_]
  split <;> simp

@[simp] theorem setError_peerInboxKey (s : Conn) (e : Err) :
    (setError_ s e).peerInboxKey = s.peerInboxKey := by
  simp only [setError_]
  split <;> simp

@[simp] theorem setError_numWritesInFlight (s : Conn) (e : Err) :
    (setError_ s e).numWritesInFlight = s.numWritesInFlight := by
  simp only [setError_]
  split <;> simp

@[simp] theorem setError_numAcksInFlight (s : Conn) (e : Err) :
    (setError_ s e).numAcksInFlight = s.numAcksInFlight := by
  simp only [setError_]
  split <;> simp

@[simp] theorem setError_outboxTail (s : Conn) (e : Err) :
    (setError_ s e).outboxTail = s.outboxTail := by
  simp only [setError_]
  split <;> simp

@[simp] theorem setError_outboxHead (s : Conn) (e : Err) :
    (setError_ s e).outboxHead = s.outboxHead := by
  simp only [setError_]
  split <;> simp

@[simp] theorem setError_inboxHead (s : Conn) (e : Err) :
    (setError_ s e).inboxHead = s.inboxHead := by
  simp only [setError_]
  split <;> simp

@[simp] theorem setError_inboxTail (s : Conn) (e : Err) :
    (setError_ s e).inboxTail = s.inboxTail := by
  simp only [setError_]
  split <;> simp

@[simp] theorem setError_numBytesInFlight (s : Conn) (e : Err) :
    (setError_ s e).numBytesInFlight = s.numBytesInFlight := by
  simp only [setError_]
  split <;> simp

@[simp] theorem setError_nextBufferBeingRead (s : Conn) (e : Err) :
    (setError_ s e).nextBufferBeingRead = s.nextBufferBeingRead := by
  simp only [setError_]
  split <;> simp

@[simp] theorem setError_nextBufferBeingWritten (s : Conn) (e : Err) :
    (setError_ s e).nextBufferBeingWritten = s.nextBufferBeingWritten := by
  simp only [setError_]
  split <;> simp

@[simp] theorem setError_state (s : Conn) (e : Err) :
    (setError_ s e).state = s.state := by
  simp only [setError_]
  split <;> simp

@[simp] theorem setError_cleanedUp (s : Conn) (e : Err) :
    (setError_ s e).cleanedUp = s.cleanedUp := by
  simp only [setError_]
  split <;> simp

@[simp] theorem setError_postedWrs (s : Conn) (e : Err) :
    (setError_ s e).postedWrs = s.postedWrs := by
  simp only [setError_]
  split <;> simp

theorem expectedWriteWrs_fields (p k : Nat) : ∀ (spans : List Span) (head : Nat),
    ∀ wr ∈ expectedWriteWrs p k head spans,
      wr.wrId = kWriteRequestId ∧ wr.opcode = Opcode.rdmaWriteWithImm ∧
      wr.rkey = k := by
  intro spans
  induction spans with
  | nil =>
    intro head wr hw
    simp [expectedWriteWrs] at hw
  | cons sp rest ih =>
    intro head wr hw
    simp only [expectedWriteWrs, List.mem_cons] at hw
    rcases hw with rfl | hw
    · exact ⟨rfl, rfl, rfl⟩
    · exact ih _ wr hw

theorem expectedWriteWrs_imm (p k : Nat) : ∀ (spans : List Span) (head : Nat),
    (expectedWriteWrs p k head spans).map SendWr.imm = spans.map Span.len := by
  intro spans
  induction spans with
  | nil => intro head; rfl
  | cons sp rest ih =>
    intro head
    simp [expectedWriteWrs, ih]

theorem goWrite_peer_mono (ops : List WriteOp) : ∀ s : Conn,
    s.peerInboxHead ≤ (goWrite s ops).peerInboxHead := by
  induction ops with
  | nil => intro s; simp [goWrite]
  | cons op rest ih =>
    intro s
    simp only [goWrite]
    split
    · refine le_trans ?_ (ih _)
      simp only [invokeWriteCb, writePass_peerInboxHead]
      omega
    · simp only [writePass_peerInboxHead]
      omega

theorem processRead_peer_eq (t : Conn) :
    (processReadOperationsFromLoop t).peerInboxHead = t.peerInboxHead := by
  unfold processReadOperationsFromLoop
  split <;> simp

theorem processWrite_peer_mono (t : Conn) :
    t.peerInboxHead ≤ (processWriteOperationsFromLoop t).peerInboxHead := by
  unfold processWriteOperationsFromLoop
  split
  · exact goWrite_peer_mono t.writeOps t
  · exact le_refl _

/-- No event ever decreases the local view of the peer inbox head. -/
theorem stepF_peer_mono (s : Conn) (e : Event) (s' : Conn)
    (hs : stepF s e = some s') : s.peerInboxHead ≤ s'.peerInboxHead := by
  cases e with
  | initOk =>
    simp only [stepF] at hs
    split at hs
    · simp only [Option.some.injEq] at hs
      subst hs
      simp
    · cases hs
  | initFail err =>
    simp only [stepF] at hs
    split at hs
    · simp only [Option.some.injEq] at hs
      subst hs
      simp
    · cases hs
  | epollOutOk =>
    simp only [stepF] at hs
    split at hs
    · simp only [Option.some.injEq] at hs
      subst hs
      simp
    · cases hs
  | epollOutShort actual =>
    simp only [stepF] at hs
    split at hs
    · simp only [Option.some.injEq] at hs
      subst hs
      simp
    · cases hs
  | epollInOk pPtr pKey =>
    simp only [stepF] at hs
    split at hs
    · simp only [Option.some.injEq] at hs
      subst hs
      simp only [establish, processRead_peer_eq]
      exact processWrite_peer_mono
        { s with peerInboxPtr := pPtr, peerInboxKey := pKey,
                 state := LState.established }
    · cases hs
  | epollInShort actual =>
    simp only [stepF] at hs
    split at hs
    · simp only [Option.some.injEq] at hs
      subst hs
      simp
    · cases hs
  | epollInEof =>
    simp only [stepF] at hs
    split at hs
    · simp only [Option.some.injEq] at hs
      subst hs
      simp
    · cases hs
  | epollErr errno =>
    simp only [stepF] at hs
    split at hs
    · simp only [Option.some.injEq] at hs
      subst hs
      simp
    · cases hs
  | epollHup =>
    simp only [stepF] at hs
    split at hs
    · simp only [Option.some.injEq] at hs
      subst hs
      simp
    · cases hs
  | submitReadSized ptr len =>
    simp only [stepF, Option.some.injEq] at hs
    subst hs
    simp only [readFromLoopSized]
    split
    · simp [invokeReadCb]
    · simp [processRead_peer_eq]
  | submitReadUnsized =>
    simp only [stepF, Option.some.injEq] at hs
    subst hs
    simp only [readFromLoopUnsized]
    split
    · simp [invokeReadCb]
    · simp [processRead_peer_eq]
  | submitReadNop total =>
    simp only [stepF, Option.some.injEq] at hs
    subst hs
    simp only [readFromLoopNop]
    split
    · simp [invokeReadCb]
    · simp [processRead_peer_eq]
  | submitWriteRaw total =>
    simp only [stepF, Option.some.injEq] at hs
    subst hs
    simp only [writeFromLoopRaw]
    split
    · simp [invokeWriteCb]
    · exact processWrite_peer_mono
        { s with nextBufferBeingWritten := s.nextBufferBeingWritten + 1,
                 writeOps := s.writeOps ++ [⟨s.nextBufferBeingWritten, total, 0⟩] }
  | submitWriteNop total =>
    simp only [stepF, Option.some.injEq] at hs
    subst hs
    simp only [writeFromLoopNop]
    split
    · simp [invokeWriteCb]
    · exact processWrite_peer_mono
        { s with nextBufferBeingWritten := s.nextBufferBeingWritten + 1,
                 writeOps := s.writeOps ++ [⟨s.nextBufferBeingWritten, total, 0⟩] }
  | remoteProduced len =>
    simp only [stepF] at hs
    split at hs
    · simp only [Option.some.injEq] at hs
      subst hs
      simp [onRemoteProducedData, processRead_peer_eq]
    · cases hs
  | remoteConsumed len =>
    simp only [stepF] at hs
    split at hs
    · simp only [Option.some.injEq] at hs
      subst hs
      simp only [onRemoteConsumedData]
      exact processWrite_peer_mono
        { s with outboxTail := s.outboxTail + len,
                 numBytesInFlight := s.numBytesInFlight - len }
    · cases hs
  | writeCompleted =>
    simp only [stepF] at hs
    split at hs
    · simp only [Option.some.injEq] at hs
      subst hs
      simp [onWriteCompleted]
    · cases hs
  | ackCompleted =>
    simp only [stepF] at hs
    split at hs
    · simp only [Option.some.injEq] at hs
      subst hs
      simp [onAckCompleted]
    · cases hs
  | wcError status wrId =>
    simp only [stepF] at hs
    split at hs
    · simp only [Option.some.injEq] at hs
      subst hs
      simp only [onError]
      split
      · simp [onWriteCompleted]
      · split
        · simp [onAckCompleted]
        · simp
    · cases hs
  | closeEv =>
    simp only [stepF, Option.some.injEq] at hs
    subst hs
    simp only [closeFromLoop]
    simp
  | cleanupRun =>
    simp only [stepF] at hs
    split at hs
    · simp only [Option.some.injEq] at hs
      subst hs
      simp [cleanup_]
    · cases hs

theorem close_close (s : Conn) :
    closeFromLoop (closeFromLoop s) = closeFromLoop s :=
  setError_setError s Err.connectionClosed Err.connectionClosed

theorem close_iterate_aux (m : Nat) : ∀ s : Conn,
    closeFromLoop^[m] (closeFromLoop s) = closeFromLoop s := by
  induction m with
  | zero => intro s; rfl
  | succ k ih =>
    intro s
    rw [Function.iterate_succ_apply, close_close]
    exact ih s


/-- The observable actions of `Connection::Impl::handleError`, in program
order. -/
inductive HAction where
  | readCb (seq : Nat) : HAction
  | writeCb (seq : Nat) : HAction
  | qpToError : HAction
  | tryCleanupCall : HAction
  | unregisterSocket : HAction
  | closeSocket : HAction
  deriving DecidableEq, Repr

/-- The action trace of `handleError` (lines 923-946 of `connection.cc`):
fail every queued read callback, then every queued write callback, transition
the QP to the error state, call `tryCleanup_`, and then, if the socket is
still present, unregister it from the loop (when the state is past
`INITIALIZING`) and reset it. -/
def handleErrorTrace (s : Conn) : List HAction :=
  (s.readOps.map fun op => HAction.readCb op.seq) ++
  (s.writeOps.map fun op => HAction.writeCb op.seq) ++
  [HAction.qpToError, HAction.tryCleanupCall] ++
  (if s.socketOpen then
    (if stateNum s.state > 1 then [HAction.unregisterSocket] else []) ++
    [HAction.closeSocket]
   else [])

/-- A connection in the `SEND_ADDR` state with its socket registered, as it
stands when the handshake fails. -/
def c9State : Conn := { initConn with state := .sendAddr }

/-- A connection about to post a write chunk that wraps around the end of the
outbox ring. -/
def c6State : Conn :=
  { initConn with peerInboxPtr := 4096, peerInboxKey := 77,
                  peerInboxHead := 2097150, outboxHead := 2097155,
                  outboxTail := 2097150 }

/-- A connection with one RDMA write and one ACK in flight. -/
def c5State : Conn :=
  { initConn with numWritesInFlight := 1, numAcksInFlight := 1 }

/-- C1: read callbacks are invoked in submission order, and likewise write
callbacks: in every reachable state the read-callback log records exactly the
sequence numbers `0, 1, ..., nextReadCallbackToCall_ - 1` in order (and the
write-callback log the numbers up to `nextWriteCallbackToCall_`), so each
callback wrapper finds the invocation counter equal to its own submission
sequence number, and the `TP_DCHECK_EQ` in the wrappers has never failed. -/
theorem callbacks_fire_in_submission_order (s : Conn) (h : Reachable s) :
    s.assertFailed = false ∧
    s.readCbLog.map ReadCbCall.seq = List.range s.nextReadCallbackToCall ∧
    s.writeCbLog.map WriteCbCall.seq = List.range s.nextWriteCallbackToCall :=
  ⟨(reachable_inv h).noFail, (reachable_inv h).rlog, (reachable_inv h).wlog⟩

theorem callbacks_fire_in_submission_order_witness :
    (readFromLoopSized (closeFromLoop initConn) 11 5).assertFailed = false ∧
    (readFromLoopSized (closeFromLoop initConn) 11 5).readCbLog.map
      ReadCbCall.seq =
      List.range
        ((readFromLoopSized (closeFromLoop initConn) 11 5).nextReadCallbackToCall) ∧
    (readFromLoopSized (closeFromLoop initConn) 11 5).writeCbLog.map
      WriteCbCall.seq =
      List.range
        ((readFromLoopSized (closeFromLoop initConn) 11 5).nextWriteCallbackToCall) := by
  have h1 : stepF initConn Event.closeEv = some (closeFromLoop initConn) := rfl
  have h2 : stepF (closeFromLoop initConn) (Event.submitReadSized 11 5) =
      some (readFromLoopSized (closeFromLoop initConn) 11 5) := rfl
  exact callbacks_fire_in_submission_order _
    (Reachable.step (Reachable.step Reachable.init h1) h2)

/-- C2: `tryCleanup_` defers `cleanup_` only from a state where an error is
latched and both `numWritesInFlight_` and `numAcksInFlight_` are zero; in any
state where either counter is nonzero or no error is set it changes nothing;
and `cleanup_` releases the QP registration, the QP, the inbox MR, the inbox
buffer, the outbox MR and the outbox buffer, in that order. -/
theorem tryCleanup_schedules_only_when_drained (s : Conn) :
    ((s.error = none ∨ s.numWritesInFlight ≠ 0 ∨ s.numAcksInFlight ≠ 0) →
      tryCleanup_ s = s) ∧
    (s.error.isSome = true → s.numWritesInFlight = 0 →
      s.numAcksInFlight = 0 →
      tryCleanup_ s = { s with cleanupScheduled := true }) ∧
    (cleanup_ s).releasedResources = s.releasedResources ++
      [.qpUnregister, .qpReset, .inboxMrReset, .inboxBufReset,
       .outboxMrReset, .outboxBufReset] := by
  refine ⟨?_, ?_, rfl⟩
  · intro h
    unfold tryCleanup_
    split
    · next he =>
      split
      · next hc =>
        exfalso
        rcases h with h | h | h
        · simp [h] at he
        · exact h hc.1
        · exact h hc.2
      · rfl
    · rfl
  · intro he hw ha
    unfold tryCleanup_
    simp [he, hw, ha]

theorem tryCleanup_schedules_only_when_drained_witness :
    tryCleanup_ initConn = initConn ∧
    tryCleanup_ (closeFromLoop initConn) =
      { closeFromLoop initConn with cleanupScheduled := true } :=
  ⟨(tryCleanup_schedules_only_when_drained initConn).1 (Or.inl rfl),
   (tryCleanup_schedules_only_when_drained (closeFromLoop initConn)).2.1
     rfl rfl rfl⟩

/-- C3: setting an error is idempotent: after the first `setError_` latches
an error, any later `setError_` (with any error) leaves the whole connection
state unchanged; in particular calling `closeFromLoop` (which sets
`ConnectionClosed` through `setError_`) any number N ≥ 1 of times has the
same effect as calling it once. -/
theorem setError_idempotent_close_idempotent (s : Conn) (e1 e2 : Err)
    (n : Nat) :
    setError_ (setError_ s e1) e2 = setError_ s e1 ∧
    (1 ≤ n → closeFromLoop^[n] s = closeFromLoop s) := by
  refine ⟨setError_setError s e1 e2, ?_⟩
  intro hn
  cases n with
  | zero => omega
  | succ k =>
    rw [Function.iterate_succ_apply]
    exact close_iterate_aux k s

theorem setError_idempotent_close_idempotent_witness :
    setError_ (setError_ initConn .eofError) .connectionClosed =
      setError_ initConn .eofError ∧
    closeFromLoop^[3] initConn = closeFromLoop initConn :=
  ⟨(setError_idempotent_close_idempotent initConn .eofError
      .connectionClosed 3).1,
   (setError_idempotent_close_idempotent initConn .eofError
      .connectionClosed 3).2 (by omega)⟩

/-- C4: a read or write submitted after an error is latched completes
synchronously inside the deferred lambda with the latched error and is never
queued: for each of the five submission flavours the operation queues, the
posted-work-request log and all ring-buffer state (inbox head/tail, outbox
head/tail, in-flight bytes) are unchanged, and exactly one callback
invocation carrying the latched error is appended to the log. -/
theorem post_error_submission_synchronous (s : Conn) (e0 : Err)
    (ptr len total : Nat) (h : s.error = some e0) :
    ((readFromLoopSized s ptr len).readOps = s.readOps ∧
     (readFromLoopSized s ptr len).writeOps = s.writeOps ∧
     (readFromLoopSized s ptr len).postedWrs = s.postedWrs ∧
     ((readFromLoopSized s ptr len).inboxHead,
      (readFromLoopSized s ptr len).inboxTail,
      (readFromLoopSized s ptr len).outboxHead,
      (readFromLoopSized s ptr len).outboxTail,
      (readFromLoopSized s ptr len).numBytesInFlight) =
       (s.inboxHead, s.inboxTail, s.outboxHead, s.outboxTail,
        s.numBytesInFlight) ∧
     (readFromLoopSized s ptr len).readCbLog = s.readCbLog ++
       [⟨s.nextBufferBeingRead, some e0, some ptr, len⟩]) ∧
    ((readFromLoopUnsized s).readOps = s.readOps ∧
     (readFromLoopUnsized s).writeOps = s.writeOps ∧
     (readFromLoopUnsized s).postedWrs = s.postedWrs ∧
     ((readFromLoopUnsized s).inboxHead, (readFromLoopUnsized s).inboxTail,
      (readFromLoopUnsized s).outboxHead, (readFromLoopUnsized s).outboxTail,
      (readFromLoopUnsized s).numBytesInFlight) =
       (s.inboxHead, s.inboxTail, s.outboxHead, s.outboxTail,
        s.numBytesInFlight) ∧
     (readFromLoopUnsized s).readCbLog = s.readCbLog ++
       [⟨s.nextBufferBeingRead, some e0, none, 0⟩]) ∧
    ((readFromLoopNop s total).readOps = s.readOps ∧
     (readFromLoopNop s total).writeOps = s.writeOps ∧
     (readFromLoopNop s total).postedWrs = s.postedWrs ∧
     ((readFromLoopNop s total).inboxHead, (readFromLoopNop s total).inboxTail,
      (readFromLoopNop s total).outboxHead,
      (readFromLoopNop s total).outboxTail,
      (readFromLoopNop s total).numBytesInFlight) =
       (s.inboxHead, s.inboxTail, s.outboxHead, s.outboxTail,
        s.numBytesInFlight) ∧
     (readFromLoopNop s total).readCbLog = s.readCbLog ++
       [⟨s.nextBufferBeingRead, some e0, none, 0⟩]) ∧
    ((writeFromLoopRaw s total).readOps = s.readOps ∧
     (writeFromLoopRaw s total).writeOps = s.writeOps ∧
     (writeFromLoopRaw s total).postedWrs = s.postedWrs ∧
     ((writeFromLoopRaw s total).inboxHead,
      (writeFromLoopRaw s total).inboxTail,
      (writeFromLoopRaw s total).outboxHead,
      (writeFromLoopRaw s total).outboxTail,
      (writeFromLoopRaw s total).numBytesInFlight) =
       (s.inboxHead, s.inboxTail, s.outboxHead, s.outboxTail,
        s.numBytesInFlight) ∧
     (writeFromLoopRaw s total).writeCbLog = s.writeCbLog ++
       [⟨s.nextBufferBeingWritten, some e0⟩]) ∧
    ((writeFromLoopNop s total).readOps = s.readOps ∧
     (writeFromLoopNop s total).writeOps = s.writeOps ∧
     (writeFromLoopNop s total).postedWrs = s.postedWrs ∧
     ((writeFromLoopNop s total).inboxHead,
      (writeFromLoopNop s total).inboxTail,
      (writeFromLoopNop s total).outboxHead,
      (writeFromLoopNop s total).outboxTail,
      (writeFromLoopNop s total).numBytesInFlight) =
       (s.inboxHead, s.inboxTail, s.outboxHead, s.outboxTail,
        s.numBytesInFlight) ∧
     (writeFromLoopNop s total).writeCbLog = s.writeCbLog ++
       [⟨s.nextBufferBeingWritten, some e0⟩]) := by
  refine ⟨⟨?_, ?_, ?_, ?_, ?_⟩, ⟨?_, ?_, ?_, ?_, ?_⟩, ⟨?_, ?_, ?_, ?_, ?_⟩,
    ⟨?_, ?_, ?_, ?_, ?_⟩, ⟨?_, ?_, ?_, ?_, ?_⟩⟩ <;>
    simp [readFromLoopSized, readFromLoopUnsized, readFromLoopNop,
      writeFromLoopRaw, writeFromLoopNop, h, invokeReadCb, invokeWriteCb]

theorem post_error_submission_synchronous_witness :
    (readFromLoopSized (closeFromLoop initConn) 11 5).readOps =
      (closeFromLoop initConn).readOps ∧
    (writeFromLoopRaw (closeFromLoop initConn) 9).writeCbLog =
      (closeFromLoop initConn).writeCbLog ++
        [⟨(closeFromLoop initConn).nextBufferBeingWritten,
          some Err.connectionClosed⟩] :=
  ⟨(post_error_submission_synchronous (closeFromLoop initConn)
      Err.connectionClosed 11 5 9 rfl).1.1,
   (post_error_submission_synchronous (closeFromLoop initConn)
      Err.connectionClosed 11 5 9 rfl).2.2.2.1.2.2.2.2⟩

/-- C5: every posted work request raises the matching in-flight counter by
one (`postSpan` posts one RDMA write and raises `numWritesInFlight_`,
`postAckWr` posts one ACK send and raises `numAcksInFlight_`), every
successful completion lowers the matching counter by exactly one, and a
failed completion routed through `onError` uses `wr_id` to decrement the
matching counter exactly once: `kWriteRequestId` decrements
`numWritesInFlight_` and `kAckRequestId` decrements `numAcksInFlight_`,
each leaving the other counter unchanged. -/
theorem inflight_counter_accounting (s : Conn) (sp : Span)
    (len status : Nat) :
    ((postSpan s sp).numWritesInFlight = s.numWritesInFlight + 1 ∧
     (postSpan s sp).numAcksInFlight = s.numAcksInFlight ∧
     (postSpan s sp).postedWrs.length = s.postedWrs.length + 1) ∧
    ((postAckWr s len).numAcksInFlight = s.numAcksInFlight + 1 ∧
     (postAckWr s len).numWritesInFlight = s.numWritesInFlight ∧
     (postAckWr s len).postedWrs.length = s.postedWrs.length + 1) ∧
    (0 < s.numWritesInFlight →
      (onWriteCompleted s).numWritesInFlight = s.numWritesInFlight - 1 ∧
      (onWriteCompleted s).numAcksInFlight = s.numAcksInFlight) ∧
    (0 < s.numAcksInFlight →
      (onAckCompleted s).numAcksInFlight = s.numAcksInFlight - 1 ∧
      (onAckCompleted s).numWritesInFlight = s.numWritesInFlight) ∧
    ((onError s status kWriteRequestId).numWritesInFlight =
       s.numWritesInFlight - 1 ∧
     (onError s status kWriteRequestId).numAcksInFlight =
       s.numAcksInFlight) ∧
    ((onError s status kAckRequestId).numAcksInFlight =
       s.numAcksInFlight - 1 ∧
     (onError s status kAckRequestId).numWritesInFlight =
       s.numWritesInFlight) := by
  refine ⟨⟨?_, ?_, ?_⟩, ⟨?_, ?_, ?_⟩, ?_, ?_, ⟨?_, ?_⟩, ⟨?_, ?_⟩⟩ <;>
    simp [postSpan, postAckWr, onWriteCompleted, onAckCompleted, onError,
      kWriteRequestId, kAckRequestId]

theorem inflight_counter_accounting_witness :
    (onError c5State 9 kWriteRequestId).numWritesInFlight =
      c5State.numWritesInFlight - 1 ∧
    (onError c5State 9 kWriteRequestId).numAcksInFlight =
      c5State.numAcksInFlight ∧
    (onWriteCompleted c5State).numWritesInFlight =
      c5State.numWritesInFlight - 1 :=
  ⟨(inflight_counter_accounting c5State ⟨0, 0⟩ 0 9).2.2.2.2.1.1,
   (inflight_counter_accounting c5State ⟨0, 0⟩ 0 9).2.2.2.2.1.2,
   ((inflight_counter_accounting c5State ⟨0, 0⟩ 0 9).2.2.1 (by decide)).1⟩

/-- C6: for each span of the cancelled outbox peek, the posted RDMA write
carries `wr_id = kWriteRequestId`, opcode `RDMA_WRITE_WITH_IMM`, `imm_data`
equal to the span length, remote key `peerInboxKey_` and remote address
`peerInboxPtr_ + (peerInboxHead_ & (kBufferSize - 1))` evaluated when that
span is posted (the masking `& (kBufferSize - 1)` coincides with
`% kBufferSize`); posting a chunk of `len` produced bytes advances
`peerInboxHead_` by exactly `len` (the spans cover the chunk), raises
`numWritesInFlight_` by the number of spans, leaves the outbox tail
unchanged (the peek transaction is cancelled), and raises
`numBytesInFlight_` by exactly `len`. -/
theorem write_chunk_posting (s : Conn) (len : Nat) (h : 0 < len) :
    (postChunk s len).postedWrs = s.postedWrs ++
      expectedWriteWrs s.peerInboxPtr s.peerInboxKey s.peerInboxHead
        (outboxSpans s.outboxTail s.numBytesInFlight len) ∧
    sumLens (outboxSpans s.outboxTail s.numBytesInFlight len) = len ∧
    (postChunk s len).peerInboxHead = s.peerInboxHead + len ∧
    (postChunk s len).numWritesInFlight = s.numWritesInFlight +
      (outboxSpans s.outboxTail s.numBytesInFlight len).length ∧
    (postChunk s len).outboxTail = s.outboxTail ∧
    (postChunk s len).numBytesInFlight = s.numBytesInFlight + len ∧
    (∀ wr ∈ expectedWriteWrs s.peerInboxPtr s.peerInboxKey s.peerInboxHead
        (outboxSpans s.outboxTail s.numBytesInFlight len),
      wr.wrId = kWriteRequestId ∧ wr.opcode = Opcode.rdmaWriteWithImm ∧
      wr.rkey = s.peerInboxKey) ∧
    (expectedWriteWrs s.peerInboxPtr s.peerInboxKey s.peerInboxHead
        (outboxSpans s.outboxTail s.numBytesInFlight len)).map SendWr.imm =
      (outboxSpans s.outboxTail s.numBytesInFlight len).map Span.len ∧
    s.peerInboxHead &&& (kBufferSize - 1) = s.peerInboxHead % kBufferSize := by
  refine ⟨?_, sumLens_outboxSpans _ _ _, ?_, ?_, ?_, ?_,
    expectedWriteWrs_fields _ _ _ _, expectedWriteWrs_imm _ _ _ _, ?_⟩
  · simp [postChunk]
  · simp [postChunk, sumLens_outboxSpans]
  · simp [postChunk]
  · simp [postChunk]
  · simp [postChunk]
  · have hk : kBufferSize = 2 ^ 21 := by norm_num [kBufferSize]
    rw [hk, Nat.and_pow_two_sub_one_eq_mod]

theorem write_chunk_posting_witness :
    (postChunk c6State 5).peerInboxHead = c6State.peerInboxHead + 5 ∧
    (postChunk c6State 5).outboxTail = c6State.outboxTail ∧
    (postChunk c6State 5).numWritesInFlight = c6State.numWritesInFlight +
      (outboxSpans c6State.outboxTail c6State.numBytesInFlight 5).length :=
  ⟨(write_chunk_posting c6State 5 (by decide)).2.2.1,
   (write_chunk_posting c6State 5 (by decide)).2.2.2.2.1,
   (write_chunk_posting c6State 5 (by decide)).2.2.2.1⟩

/-- C7: a pass of the read-processing loop over the head operation that
consumes `L > 0` bytes from the inbox posts exactly one zero-payload send
with `wr_id = kAckRequestId`, opcode `SEND_WITH_IMM` and `imm_data = L`
(every other field zeroed), and raises `numAcksInFlight_` by one; a pass
that consumes zero bytes posts nothing and leaves the counter unchanged. -/
theorem read_ack_posting (s : Conn) (op : ReadOp) :
    (0 < op.passLen (s.inboxHead - s.inboxTail) →
      (readPass s op).postedWrs = s.postedWrs ++
        [{ wrId := kAckRequestId, opcode := .sendWithImm,
           imm := op.passLen (s.inboxHead - s.inboxTail),
           remoteAddr := 0, rkey := 0 }] ∧
      (readPass s op).numAcksInFlight = s.numAcksInFlight + 1) ∧
    (op.passLen (s.inboxHead - s.inboxTail) = 0 →
      (readPass s op).postedWrs = s.postedWrs ∧
      (readPass s op).numAcksInFlight = s.numAcksInFlight) := by
  constructor
  · intro h
    simp only [readPass]
    rw [if_pos h]
    simp [postAckWr]
  · intro h
    simp only [readPass]
    rw [if_neg (by omega)]
    simp

theorem read_ack_posting_witness :
    (readPass { initConn with inboxHead := 3 }
        ⟨0, .sized 500 2, 0⟩).numAcksInFlight =
      ({ initConn with inboxHead := 3 } : Conn).numAcksInFlight + 1 ∧
    (readPass { initConn with inboxHead := 3 }
        ⟨0, .sized 500 2, 0⟩).postedWrs =
      ({ initConn with inboxHead := 3 } : Conn).postedWrs ++
        [{ wrId := kAckRequestId, opcode := .sendWithImm, imm := 2,
           remoteAddr := 0, rkey := 0 }] :=
  ⟨((read_ack_posting { initConn with inboxHead := 3 }
      ⟨0, .sized 500 2, 0⟩).1 (by decide)).2,
   ((read_ack_posting { initConn with inboxHead := 3 }
      ⟨0, .sized 500 2, 0⟩).1 (by decide)).1⟩

/-- C8: flow control towards the peer inbox: in every reachable state, the
local view `peerInboxHead_` minus the inferred peer inbox tail (the local
outbox tail, which accumulates the lengths of all received ACKs) is at most
the ring capacity, and no accepted event ever decreases `peerInboxHead_`. -/
theorem peer_inbox_flow_control (s : Conn) (h : Reachable s) :
    s.peerInboxHead - s.outboxTail ≤ kBufferSize ∧
    ∀ (e : Event) (s' : Conn), stepF s e = some s' →
      s.peerInboxHead ≤ s'.peerInboxHead := by
  have hv := reachable_inv h
  refine ⟨?_, fun e s' hs => stepF_peer_mono s e s' hs⟩
  have h1 := hv.peerEq
  have h2 := hv.obLe
  have h3 := hv.obCap
  omega

theorem peer_inbox_flow_control_witness :
    initConn.peerInboxHead - initConn.outboxTail ≤ kBufferSize :=
  (peer_inbox_flow_control initConn Reachable.init).1

/-- C9 (as claimed, refuted): at the concrete state `c9State` (socket open
and registered, handshake in progress) the trace of `handleError` does NOT
unregister and close the socket before calling `tryCleanup_`: both socket
actions come after the `tryCleanup_` call. -/
theorem handleError_socket_order_counterexample :
    ¬ ((handleErrorTrace c9State).indexOf HAction.closeSocket <
         (handleErrorTrace c9State).indexOf HAction.tryCleanupCall ∧
       (handleErrorTrace c9State).indexOf HAction.unregisterSocket <
         (handleErrorTrace c9State).indexOf HAction.tryCleanupCall) := by
  decide

/-- C9 (amended): on the first error, `handleError` performs its steps in
this order: (1) invoke every pending read-queue callback with the error and
clear the read queue, then the same for the write queue; (2) transition the
QP to the ERROR state; (3) call `tryCleanup_`; (4) only then, if the TCP
socket is still open and was registered, unregister it from the loop and
close it — the socket is unregistered and closed after `tryCleanup_` is
called, not before. -/
theorem handleError_action_order (s : Conn) (h1 : s.socketOpen = true)
    (h2 : stateNum s.state > 1) :
    handleErrorTrace s =
      (s.readOps.map fun op => HAction.readCb op.seq) ++
      (s.writeOps.map fun op => HAction.writeCb op.seq) ++
      [HAction.qpToError, HAction.tryCleanupCall,
       HAction.unregisterSocket, HAction.closeSocket] := by
  simp [handleErrorTrace, h1, h2]

theorem handleError_action_order_witness :
    handleErrorTrace c9State =
      [HAction.qpToError, HAction.tryCleanupCall,
       HAction.unregisterSocket, HAction.closeSocket] := by
  have h := handleError_action_order c9State rfl (by decide)
  simpa [c9State, initConn] using h

/-- C10: the arguments passed to a read callback invoked synchronously after
an error is latched depend on the read flavour: a sized read's callback
receives the caller's original buffer pointer and the full requested length,
while an unsized read's callback receives a null pointer and length zero; in
both cases the error argument is the latched error. -/
theorem post_error_read_callback_args (s : Conn) (e0 : Err) (ptr len : Nat)
    (h : s.error = some e0) :
    (readFromLoopSized s ptr len).readCbLog =
      s.readCbLog ++ [⟨s.nextBufferBeingRead, some e0, some ptr, len⟩] ∧
    (readFromLoopUnsized s).readCbLog =
      s.readCbLog ++ [⟨s.nextBufferBeingRead, some e0, none, 0⟩] := by
  constructor <;>
    simp [readFromLoopSized, readFromLoopUnsized, h, invokeReadCb]

theorem post_error_read_callback_args_witness :
    (readFromLoopUnsized (closeFromLoop initConn)).readCbLog =
      (closeFromLoop initConn).readCbLog ++
        [⟨(closeFromLoop initConn).nextBufferBeingRead,
          some Err.connectionClosed, none, 0⟩] :=
  (post_error_read_callback_args (closeFromLoop initConn)
    Err.connectionClosed 11 5 rfl).2

end TensorpipeIbv

